import Mathlib

/-!
# Storage node: streaming transfer protocol and metadata index

A shallow embedding of `server/server.go` (the gRPC storage node) and of the
upload and download commands of `client/main.go`, with the properties of the
transfer protocol and of the metadata index proved about it.

Modelling choices:

* The metadata index `s.files` (a Go map) is an association list with unique keys.
* The filesystem is a map from path to file content together with a schedule of
  injected failures: every filesystem call consumes one entry of the schedule and
  fails when that entry is `true`; an exhausted schedule means no failure.
  Independently of the schedule, the empty path names no file.
* A read with an `n`-byte buffer returns the next `n` bytes of the file, or what
  is left of it.
* An incoming stream is the list of chunks `Recv` delivers followed by either
  `io.EOF` or a transport error; sends on a stream may be made to fail.
* Go `int32` conversions are explicit (`toInt32`); file sizes are natural numbers.
* The mutex is not modelled: every RPC runs to completion before the next starts.
* Library functions of the platform (`sha256.Sum256`, `filepath.Join`) are taken
  as parameters, bundled in `Env`; `time.Now()` readings are arguments.
* The client is modelled on the content of its source file; its own file and
  connection handling is taken to succeed.
-/

namespace StorageNode

/-! ## Data model -/

abbrev Bytes := List UInt8

/-- Conversion of a Go `int` to `int32` (two's complement truncation). -/
def toInt32 (n : Int) : Int := (n + 2147483648) % 4294967296 - 2147483648

/-- Protocol message `pb.FileChunk`. -/
structure FileChunk where
  FileId : String
  Content : Bytes
  ChunkNumber : Int
deriving DecidableEq

/-- Protocol message `pb.FileRequest`. -/
structure FileRequest where
  FileId : String
deriving DecidableEq

/-- Protocol message `pb.UploadResponse`. -/
structure UploadResponse where
  Success : Bool
  FileId : String
  Message : String
deriving DecidableEq

/-- Protocol message `pb.DeleteResponse`. -/
structure DeleteResponse where
  Success : Bool
  Message : String
deriving DecidableEq

/-- Protocol message `pb.StatusResponse`. `DiskSpaceAvailable` holds the
`uint64` figure before its conversion to `float64`. -/
structure StatusResponse where
  DiskSpaceAvailable : Nat
  FilesStored : Int
  NodeId : String
  Healthy : Bool
deriving DecidableEq

/-- The record kept per stored file (`fileMetadata` in `server.go`). -/
structure fileMetadata where
  filePath : String
  size : Nat
  uploadTime : Int
  isBase64 : Bool
deriving DecidableEq

/-- The server object; `files` is the metadata index. -/
structure StorageNodeServer where
  nodeID : String
  storagePath : String
  files : AList (fun _ : String => fileMetadata)

/-- The call-level failures the four RPC methods can return, one per
`fmt.Errorf` site (and one for a failed send on the stream). -/
inductive RpcError
  | recvFailed
  | createFailed
  | writeFailed
  | notFound
  | openFailed
  | readFailed
  | sendFailed
  | diskSpaceFailed
deriving DecidableEq

/-- Platform library functions used by the server. `Sum256` returns a
`[32]byte`; `Join` never returns the empty path when given a non-empty
element. -/
structure Env where
  Sum256 : Bytes → Bytes
  Sum256_length : ∀ b, (Sum256 b).length = 32
  Join : String → String → String
  Join_ne_empty : ∀ dir name, name ≠ "" → Join dir name ≠ ""

/-! ## Filesystem -/

/-- Filesystem state: file contents by path, and the schedule of injected
failures for the filesystem calls still to come. -/
structure FS where
  data : String → Option Bytes
  faults : List Bool

/-- An empty filesystem on which no call is made to fail. -/
def FS.empty : FS := ⟨fun _ => none, []⟩

/-- Consume the next entry of the failure schedule. -/
def FS.next (fs : FS) : Bool × FS :=
  match fs.faults with
  | [] => (false, fs)
  | b :: rest => (b, { fs with faults := rest })

/-- Writing `content` at `path`. -/
def FS.put (fs : FS) (path : String) (content : Bytes) : FS :=
  { fs with data := fun p => if p = path then some content else fs.data p }

/-- Removing the file at `path`. -/
def FS.del (fs : FS) (path : String) : FS :=
  { fs with data := fun p => if p = path then none else fs.data p }

/-- Model of `os.Create`: creates or truncates the file. Fails on the empty
path or on an injected failure. Returns the handle (the path) on success. -/
def osCreate (fs : FS) (path : String) : Option String × FS :=
  let (fault, fs1) := fs.next
  if fault ∨ path = "" then (none, fs1) else (some path, fs1.put path [])

/-- Model of `(*os.File).Write`: appends to the file behind the handle; a
nil handle is an error. -/
def osWrite (fs : FS) (file : Option String) (b : Bytes) : Bool × FS :=
  let (fault, fs1) := fs.next
  match file with
  | none => (false, fs1)
  | some path =>
    if fault then (false, fs1) else
    match fs1.data path with
    | none => (false, fs1)
    | some content => (true, fs1.put path (content ++ b))

/-- Model of `os.Stat` followed by `Size()`: the length of the file, or a
failure when the path is empty, no file is there, or a failure is injected. -/
def osStat (fs : FS) (path : String) : Option Nat × FS :=
  let (fault, fs1) := fs.next
  if fault ∨ path = "" then (none, fs1) else ((fs1.data path).map List.length, fs1)

/-- Model of `os.Open`: the content available to the reader. -/
def osOpen (fs : FS) (path : String) : Option Bytes × FS :=
  let (fault, fs1) := fs.next
  if fault ∨ path = "" then (none, fs1) else (fs1.data path, fs1)

/-- Model of `os.Remove`: unlinks the file; fails when there is none. -/
def osRemove (fs : FS) (path : String) : Bool × FS :=
  let (fault, fs1) := fs.next
  if fault ∨ path = "" then (false, fs1) else
  match fs1.data path with
  | none => (false, fs1)
  | some _ => (true, fs1.del path)

/-- The successive results of `file.Read(buffer)` with a buffer of `n` bytes
on `data`, up to end of file; `fuel` bounds the number of reads. -/
def blocksAux {α : Type} (n : Nat) : Nat → List α → List (List α)
  | 0, _ => []
  | _ + 1, [] => []
  | fuel + 1, x :: xs => (x :: xs).take n :: blocksAux n fuel ((x :: xs).drop n)

/-- The blocks a read loop with an `n`-byte buffer obtains from `data`. For
`n > 0` every read consumes a byte, so `data.length` reads reach the end of the
file (`blocks_flatten`). -/
def blocks {α : Type} (n : Nat) (data : List α) : List (List α) :=
  blocksAux n data.length data

/-! ## Identifier generation -/

/-- The bytes of a Go string. -/
def stringBytes (s : String) : Bytes := s.toUTF8.data.toList

/-- One digit of `hextable` in `encoding/hex`. -/
def hexDigit (n : Nat) : Char := "0123456789abcdef".toList.getD n '0'

/-- Model of `hex.EncodeToString`. -/
def hex.EncodeToString (src : Bytes) : String :=
  String.mk (src.flatMap fun b => [hexDigit (b.toNat / 16), hexDigit (b.toNat % 16)])

/-- The identifier generated at lines 96-97 of `server.go`. -/
def generateFileID (env : Env) (nodeID : String) (unixNano : Int) : String :=
  hex.EncodeToString (env.Sum256 (stringBytes (nodeID ++ "-" ++ toString unixNano)))

/-! ## Server -/

/-- Model of `NewStorageNodeServer`. -/
def NewStorageNodeServer (nodeID storagePath : String) : StorageNodeServer :=
  { nodeID := nodeID, storagePath := storagePath, files := ∅ }

/-- How the incoming stream ends: `Recv` returns `io.EOF` or another error. -/
inductive RecvEnd
  | eof
  | transportError
deriving DecidableEq

/-- The client side of an upload as the server sees it: the chunks `Recv`
delivers, what `Recv` returns after them, and whether `SendAndClose` fails. -/
structure UploadStream where
  chunks : List FileChunk
  term : RecvEnd
  closeFails : Bool

/-- The local variables of `UploadFile`. -/
structure UploadVars where
  fileID : String
  filePath : String
  file : Option String
  firstChunk : Bool

/-- Outcome of `UploadFile`: the server and filesystem afterwards, the
response handed to `SendAndClose` (if any) and the returned error. -/
structure UploadResult where
  server : StorageNodeServer
  fs : FS
  sent : Option UploadResponse
  err : Option RpcError

/-- The first-chunk block of the loop body (lines 92-108): `none` when
`os.Create` fails. -/
def UploadFile.first (env : Env) (tGen : Int) (s : StorageNodeServer) (fs : FS)
    (v : UploadVars) (chunk : FileChunk) : Option UploadVars × FS :=
  if v.firstChunk then
    let fileID := if chunk.FileId = "" then generateFileID env s.nodeID tGen else chunk.FileId
    let filePath := env.Join s.storagePath (fileID ++ ".b64")
    match osCreate fs filePath with
    | (none, fs1) => (none, fs1)
    | (some file, fs1) => (some ⟨fileID, filePath, some file, false⟩, fs1)
  else (some v, fs)

/-- The receive loop of `UploadFile` (lines 60-115). `tGen` is the clock
reading used for a generated identifier, `tDone` the one stored as upload
time. -/
def UploadFile.loop (env : Env) (tGen tDone : Int) (term : RecvEnd) (closeFails : Bool)
    (s : StorageNodeServer) : FS → UploadVars → List FileChunk → UploadResult
  | fs, v, [] =>
    match term with
    | RecvEnd.eof =>
      match osStat fs v.filePath with
      | (some size, fs1) =>
        ⟨{ s with files := s.files.insert v.fileID ⟨v.filePath, size, tDone, true⟩ }, fs1,
          some ⟨true, v.fileID, "Base64 file uploaded successfully"⟩,
          if closeFails then some RpcError.sendFailed else none⟩
      | (none, fs1) =>
        ⟨s, fs1, some ⟨true, v.fileID, "Base64 file uploaded successfully"⟩,
          if closeFails then some RpcError.sendFailed else none⟩
    | RecvEnd.transportError => ⟨s, fs, none, some RpcError.recvFailed⟩
  | fs, v, chunk :: rest =>
    match UploadFile.first env tGen s fs v chunk with
    | (none, fs1) => ⟨s, fs1, none, some RpcError.createFailed⟩
    | (some v1, fs1) =>
      match osWrite fs1 v1.file chunk.Content with
      | (false, fs2) => ⟨s, fs2, none, some RpcError.writeFailed⟩
      | (true, fs2) => UploadFile.loop env tGen tDone term closeFails s fs2 v1 rest

/-- Model of `UploadFile`. -/
def UploadFile (env : Env) (tGen tDone : Int) (s : StorageNodeServer) (fs : FS)
    (stream : UploadStream) : UploadResult :=
  UploadFile.loop env tGen tDone stream.term stream.closeFails s fs ⟨"", "", none, true⟩
    stream.chunks

/-- Outcome of `DownloadFile`: the filesystem afterwards, the chunks sent on
the stream in order, and the returned error. -/
structure DownloadResult where
  fs : FS
  emitted : List FileChunk
  err : Option RpcError

/-- The read-and-send loop of `DownloadFile` (lines 142-160) over the blocks
the reads deliver; `sendFailAt = some k` makes the send of chunk `k` fail. -/
def DownloadFile.loop (fileID : String) (sendFailAt : Option Nat) :
    FS → Nat → List Bytes → DownloadResult
  | fs, _, [] =>
    match fs.next with
    | (true, fs1) => ⟨fs1, [], some RpcError.readFailed⟩
    | (false, fs1) => ⟨fs1, [], none⟩
  | fs, chunkNumber, block :: rest =>
    match fs.next with
    | (true, fs1) => ⟨fs1, [], some RpcError.readFailed⟩
    | (false, fs1) =>
      if sendFailAt = some (chunkNumber + 1) then ⟨fs1, [], some RpcError.sendFailed⟩
      else
        let r := DownloadFile.loop fileID sendFailAt fs1 (chunkNumber + 1) rest
        { r with emitted := ⟨fileID, block, toInt32 (chunkNumber + 1)⟩ :: r.emitted }

/-- Model of `DownloadFile`. -/
def DownloadFile (s : StorageNodeServer) (fs : FS) (req : FileRequest)
    (sendFailAt : Option Nat) : DownloadResult :=
  match s.files.lookup req.FileId with
  | none => ⟨fs, [], some RpcError.notFound⟩
  | some metadata =>
    match osOpen fs metadata.filePath with
    | (none, fs1) => ⟨fs1, [], some RpcError.openFailed⟩
    | (some content, fs1) =>
      DownloadFile.loop req.FileId sendFailAt fs1 0 (blocks (1024 * 1024) content)

/-- Outcome of `DeleteFile`. -/
structure DeleteResult where
  server : StorageNodeServer
  fs : FS
  resp : DeleteResponse
  err : Option RpcError

/-- Model of `DeleteFile`. -/
def DeleteFile (s : StorageNodeServer) (fs : FS) (req : FileRequest) : DeleteResult :=
  match s.files.lookup req.FileId with
  | none => ⟨s, fs, ⟨false, "File not found: " ++ req.FileId⟩, none⟩
  | some metadata =>
    let s1 := { s with files := s.files.erase req.FileId }
    match osRemove fs metadata.filePath with
    | (false, fs1) => ⟨s1, fs1, ⟨false, "Failed to delete file"⟩, none⟩
    | (true, fs1) => ⟨s1, fs1, ⟨true, "File deleted successfully"⟩, none⟩

/-- Outcome of `GetNodeStatus`: the response (if any) and the returned error. -/
structure StatusResult where
  resp : Option StatusResponse
  err : Option RpcError
deriving DecidableEq

/-- Model of `GetNodeStatus`; `disk` is the outcome of the free-space query
(`availableBytes`, or `none` when the query fails). -/
def GetNodeStatus (s : StorageNodeServer) (disk : Option Nat) : StatusResult :=
  match disk with
  | none => ⟨none, some RpcError.diskSpaceFailed⟩
  | some availableBytes =>
    ⟨some ⟨availableBytes, toInt32 s.files.keys.length, s.nodeID, true⟩, none⟩

/-! ## Derived notions used in the statements -/

/-- The identifier an upload works under: the first chunk's `FileId`, or the
generated one when that is empty (lines 93-98); the zero value `""` when no
chunk arrives. -/
def uploadIdentifier (env : Env) (tGen : Int) (s : StorageNodeServer) :
    List FileChunk → String
  | [] => ""
  | chunk :: _ => if chunk.FileId = "" then generateFileID env s.nodeID tGen else chunk.FileId

/-- The bytes an upload stream carries, in the order received. -/
def streamContent (chunks : List FileChunk) : Bytes :=
  (chunks.map FileChunk.Content).flatten

/-- The chunks a complete download of the given blocks sends, when the
counter stands at `k` before the first. -/
def numbered (fileID : String) : Nat → List Bytes → List FileChunk
  | _, [] => []
  | k, block :: rest => ⟨fileID, block, toInt32 (k + 1)⟩ :: numbered fileID (k + 1) rest

/-! ## Sequences of completed calls -/

/-- The state the calls act on: the server object and the filesystem. -/
structure World where
  server : StorageNodeServer
  fs : FS

/-- One completed RPC call, with what its environment supplies: the clock
readings and the stream of an upload, the request and the failing send of a
download, the request of a delete, the free-space figure for a status query. -/
inductive Call
  | upload (tGen tDone : Int) (stream : UploadStream)
  | download (req : FileRequest) (sendFailAt : Option Nat)
  | delete (req : FileRequest)
  | status (disk : Option Nat)

/-- The state after one call. -/
def step (env : Env) (w : World) : Call → World
  | Call.upload tGen tDone stream =>
    ⟨(UploadFile env tGen tDone w.server w.fs stream).server,
      (UploadFile env tGen tDone w.server w.fs stream).fs⟩
  | Call.download req sendFailAt => ⟨w.server, (DownloadFile w.server w.fs req sendFailAt).fs⟩
  | Call.delete req => ⟨(DeleteFile w.server w.fs req).server, (DeleteFile w.server w.fs req).fs⟩
  | Call.status _ => w

/-- The state after a sequence of calls. -/
def run (env : Env) : World → List Call → World
  | w, [] => w
  | w, c :: cs => run env (step env w c) cs

/-- Whether the call is an `UploadFile` that returned a success response
(a response with `Success = true` and a nil error). -/
def uploadSucceeded (env : Env) (w : World) : Call → Bool
  | Call.upload tGen tDone stream =>
    match (UploadFile env tGen tDone w.server w.fs stream).sent,
      (UploadFile env tGen tDone w.server w.fs stream).err with
    | some resp, none => resp.Success
    | _, _ => false
  | _ => false

/-- Whether the call is a `DeleteFile` that answered `success = true`. -/
def deleteSucceeded (w : World) : Call → Bool
  | Call.delete req => (DeleteFile w.server w.fs req).resp.Success
  | _ => false

/-- Number of `UploadFile` calls of the sequence that returned a success response. -/
def uploadSuccesses (env : Env) : World → List Call → Nat
  | _, [] => 0
  | w, c :: cs =>
    (if uploadSucceeded env w c then 1 else 0) + uploadSuccesses env (step env w c) cs

/-- Number of `DeleteFile` calls of the sequence that answered `success = true`. -/
def deleteSuccesses (env : Env) : World → List Call → Nat
  | _, [] => 0
  | w, c :: cs =>
    (if deleteSucceeded w c then 1 else 0) + deleteSuccesses env (step env w c) cs

/-- An upload is regular in state `w` when, if its stream ends normally, it
delivers at least one chunk and its response, its identifier has no record in
`w`, and no record of `w` is located at the path of its file. Other calls are
always regular. -/
def regularCall (env : Env) (w : World) : Call → Bool
  | Call.upload tGen _ stream =>
    decide (stream.term = RecvEnd.eof →
      stream.chunks ≠ [] ∧ stream.closeFails = false ∧
      uploadIdentifier env tGen w.server stream.chunks ∉ w.server.files ∧
      ∀ e ∈ w.server.files.entries, e.2.filePath ≠
        env.Join w.server.storagePath
          (uploadIdentifier env tGen w.server stream.chunks ++ ".b64"))
  | _ => true

/-- Every call of the sequence is regular in the state it starts from. -/
def regularRun (env : Env) : World → List Call → Bool
  | _, [] => true
  | w, c :: cs => regularCall env w c && regularRun env (step env w c) cs

/-- No filesystem failure is pending, and every record is located at a
non-empty path of its own where a file exists. -/
def World.Consistent (w : World) : Prop :=
  w.fs.faults = [] ∧
  ∀ id m, w.server.files.lookup id = some m →
    m.filePath ≠ "" ∧ (w.fs.data m.filePath).isSome = true ∧
    ∀ id2 m2, w.server.files.lookup id2 = some m2 → m2.filePath = m.filePath → id2 = id

/-- The second filesystem has no failure pending and keeps every file of the
first in existence. -/
def FS.Grows (fs fs1 : FS) : Prop :=
  fs1.faults = [] ∧ ∀ q, (fs.data q).isSome = true → (fs1.data q).isSome = true

/-! ## The client: upload and download commands -/

/-- The alphabet of `base64.StdEncoding`. -/
def encodeStd : String := "ABCDEFGHIJKLMNOPQRSTUVWXYZabcdefghijklmnopqrstuvwxyz0123456789+/"

/-- The character for a six-bit value. -/
def base64Digit (n : Nat) : UInt8 := (encodeStd.toList.getD n 'A').toUInt8

/-- Model of `base64.StdEncoding.EncodeToString` followed by the conversion
to bytes: three input bytes give four characters, a final group of one or two
bytes is padded with `=` (byte 61). -/
def base64.EncodeToString : Bytes → Bytes
  | a :: b :: c :: rest =>
    base64Digit (a.toNat / 4) :: base64Digit (a.toNat % 4 * 16 + b.toNat / 16)
      :: base64Digit (b.toNat % 16 * 4 + c.toNat / 64) :: base64Digit (c.toNat % 64)
      :: base64.EncodeToString rest
  | [a, b] =>
    [base64Digit (a.toNat / 4), base64Digit (a.toNat % 4 * 16 + b.toNat / 16),
      base64Digit (b.toNat % 16 * 4), 61]
  | [a] => [base64Digit (a.toNat / 4), base64Digit (a.toNat % 4 * 16), 61, 61]
  | [] => []

/-- The client's read buffer size (`chunkSize` in `client/main.go`). -/
def chunkSize : Nat := 768 * 1024

/-- The chunks the client's `uploadFile` sends for a source file: each block
read is Base64-encoded and sent without an identifier. -/
def clientChunks (source : Bytes) : List FileChunk :=
  (blocks chunkSize source).map fun block => ⟨"", base64.EncodeToString block, 0⟩

/-- Model of the client's `uploadFile` against the server: the state of the
server afterwards and the response received (`none` when the call fails and the
client exits). The source file is given by its content. -/
def uploadFile (env : Env) (tGen tDone : Int) (w : World) (source : Bytes) :
    World × Option UploadResponse :=
  let r := UploadFile env tGen tDone w.server w.fs ⟨clientChunks source, RecvEnd.eof, false⟩
  (⟨r.server, r.fs⟩, if r.err = none then r.sent else none)

/-- Model of the client's `downloadFile` against the server: the content of
the output file once the stream has ended (`none` when the call fails and the
client exits). -/
def downloadFile (w : World) (fileID : String) : World × Option Bytes :=
  let r := DownloadFile w.server w.fs ⟨fileID⟩ none
  (⟨w.server, r.fs⟩, if r.err = none then some (r.emitted.map FileChunk.Content).flatten else none)

/-- The scenario: `uploadFile` of a source file, then `downloadFile` of the
identifier the upload returned. Gives the upload response and the content of
the output file. -/
def uploadThenDownload (env : Env) (tGen tDone : Int) (w : World) (source : Bytes) :
    Option UploadResponse × Option Bytes :=
  match uploadFile env tGen tDone w source with
  | (w1, some resp) => (some resp, (downloadFile w1 resp.FileId).2)
  | (_, none) => (none, none)

/-! ## Concrete platform and states for evaluation -/

/-- A concrete platform for evaluating the model on examples: a constant
digest and path joining by a separator. -/
def refEnv : Env where
  Sum256 := fun _ => List.replicate 32 0
  Sum256_length := fun _ => List.length_replicate 32 0
  Join := fun dir name => dir ++ "/" ++ name
  Join_ne_empty := by
    intro dir name _ h
    have h1 := congrArg String.length h
    simp at h1
    exact absurd h1.1.2 (by decide)

/-- A file of 2^31 blocks of 1 MiB. -/
def hugeFile : Bytes := List.replicate (1048576 * 2147483648) 0

/-- A server whose index holds one record, for the file `hugeFile`. -/
def hugeServer : StorageNodeServer :=
  ⟨"n", "root", AList.singleton "big" ⟨"root/big.b64", 1048576 * 2147483648, 0, true⟩⟩

/-- A filesystem holding `hugeFile` at the recorded location. -/
def hugeFS : FS := ⟨fun p => if p = "root/big.b64" then some hugeFile else none, []⟩

/-- A file of one full block of 1 MiB followed by three more bytes. -/
def twoBlockFile : Bytes := List.replicate (1048576 + 3) 7

/-- A server whose index holds one record, for the file `twoBlockFile`. -/
def twoBlockServer : StorageNodeServer :=
  ⟨"n", "root", AList.singleton "f" ⟨"root/f.b64", 1048576 + 3, 0, true⟩⟩

/-- A filesystem holding `twoBlockFile` at the recorded location. -/
def twoBlockFS : FS := ⟨fun p => if p = "root/f.b64" then some twoBlockFile else none, []⟩

/-! ## Basic facts about the filesystem model -/

theorem FS.next_of_no_faults (fs : FS) (h : fs.faults = []) : fs.next = (false, fs) := by
  unfold FS.next
  rw [h]

theorem FS.put_data_same (fs : FS) (p : String) (c : Bytes) : (fs.put p c).data p = some c := by
  simp [FS.put]

/-! ## Upload: what an aborted stream leaves behind -/

theorem UploadFile.loop_transportError (env : Env) (tGen tDone : Int) (closeFails : Bool)
    (s : StorageNodeServer) (chunks : List FileChunk) :
    ∀ (fs : FS) (v : UploadVars),
      (UploadFile.loop env tGen tDone RecvEnd.transportError closeFails s fs v chunks).server = s ∧
      (UploadFile.loop env tGen tDone RecvEnd.transportError closeFails s fs v chunks).sent = none ∧
      (UploadFile.loop env tGen tDone RecvEnd.transportError closeFails s fs v chunks).err ≠ none := by
  induction chunks with
  | nil => intro fs v; simp [UploadFile.loop]
  | cons c cs ih =>
    intro fs v
    unfold UploadFile.loop
    split
    · simp
    · split
      · simp
      · exact ih _ _

/-- Claim C4: `DeleteFile` returns a nil error for every input (also when the
unlink fails), and for an identifier without a record it answers
`success = false` and leaves the index as it was. -/
theorem DeleteFile_never_fails (s : StorageNodeServer) (fs : FS) (req : FileRequest) :
    (DeleteFile s fs req).err = none ∧
    (req.FileId ∉ s.files →
      (DeleteFile s fs req).resp.Success = false ∧ (DeleteFile s fs req).server = s) := by
  unfold DeleteFile
  constructor
  · split
    · rfl
    · dsimp only
      split <;> rfl
  · intro h
    rw [AList.lookup_eq_none.mpr h]
    exact ⟨rfl, rfl⟩

/-- Deleting an unknown identifier on a fresh server: nil error and `success = false`. -/
theorem DeleteFile_never_fails_witness :
    (DeleteFile (NewStorageNodeServer "n" "root") FS.empty ⟨"missing"⟩).err = none ∧
    (DeleteFile (NewStorageNodeServer "n" "root") FS.empty ⟨"missing"⟩).resp.Success = false :=
  ⟨(DeleteFile_never_fails (NewStorageNodeServer "n" "root") FS.empty ⟨"missing"⟩).1,
   ((DeleteFile_never_fails (NewStorageNodeServer "n" "root") FS.empty ⟨"missing"⟩).2
      (by decide)).1⟩

/-- Claim C3: when `DeleteFile` answers `success = true`, the identifier had a
record, it is absent from the index afterwards, the index holds exactly one
entry fewer, no file exists any more at the record's location, and a following
`DownloadFile` of the identifier fails with not-found without emitting a chunk. -/
theorem DeleteFile_success (s : StorageNodeServer) (fs : FS) (req : FileRequest)
    (sendFailAt : Option Nat) (h : (DeleteFile s fs req).resp.Success = true) :
    req.FileId ∉ (DeleteFile s fs req).server.files ∧
    (DeleteFile s fs req).server.files.keys.length + 1 = s.files.keys.length ∧
    (∃ m, s.files.lookup req.FileId = some m ∧ (DeleteFile s fs req).fs.data m.filePath = none) ∧
    (DownloadFile (DeleteFile s fs req).server (DeleteFile s fs req).fs req sendFailAt).err
      = some RpcError.notFound ∧
    (DownloadFile (DeleteFile s fs req).server (DeleteFile s fs req).fs req sendFailAt).emitted
      = [] := by
  cases hl : s.files.lookup req.FileId with
  | none => simp [DeleteFile, hl] at h
  | some m =>
    have hmem : req.FileId ∈ s.files := AList.lookup_isSome.mp (by rw [hl]; rfl)
    cases hr : osRemove fs m.filePath with
    | mk ok fs1 =>
      cases ok with
      | false => simp [DeleteFile, hl, hr] at h
      | true =>
        have hD : DeleteFile s fs req
            = ⟨{ s with files := s.files.erase req.FileId }, fs1,
                ⟨true, "File deleted successfully"⟩, none⟩ := by
          simp [DeleteFile, hl, hr]
        rw [hD]
        have hgone : (s.files.erase req.FileId).lookup req.FileId = none :=
          AList.lookup_erase _ _
        refine ⟨AList.lookup_eq_none.mp hgone, ?_, ⟨m, rfl, ?_⟩, ?_, ?_⟩
        · simp only [AList.keys_erase]
          rw [List.length_erase_of_mem (AList.mem_keys.mp hmem)]
          have : 0 < s.files.keys.length := List.length_pos_of_mem (AList.mem_keys.mp hmem)
          omega
        · unfold osRemove at hr
          cases hn : fs.next with
          | mk fault fs0 =>
            rw [hn] at hr
            dsimp only at hr
            split at hr
            · simp at hr
            · split at hr
              · simp at hr
              · simp only [Prod.mk.injEq, true_and] at hr
                rw [← hr]
                simp [FS.del]
        · simp [DownloadFile, hgone]
        · simp [DownloadFile, hgone]

/-- Deleting the identifier `a` right after its upload removes it from the index. -/
theorem DeleteFile_success_witness :
    "a" ∉ (DeleteFile
        (UploadFile refEnv 0 0 (NewStorageNodeServer "n" "root") FS.empty
          ⟨[⟨"a", [1, 2], 0⟩], RecvEnd.eof, false⟩).server
        (UploadFile refEnv 0 0 (NewStorageNodeServer "n" "root") FS.empty
          ⟨[⟨"a", [1, 2], 0⟩], RecvEnd.eof, false⟩).fs ⟨"a"⟩).server.files :=
  (DeleteFile_success _ _ ⟨"a"⟩ none (by decide)).1

/-! ## Upload: a stream that ends normally -/

theorem osWrite_of_no_faults (fs : FS) (path : String) (acc b : Bytes)
    (hf : fs.faults = []) (hd : fs.data path = some acc) :
    osWrite fs (some path) b = (true, fs.put path (acc ++ b)) := by
  unfold osWrite
  rw [FS.next_of_no_faults fs hf]
  simp [hd]

theorem osCreate_of_no_faults (fs : FS) (path : String) (hf : fs.faults = [])
    (hp : path ≠ "") : osCreate fs path = (some path, fs.put path []) := by
  unfold osCreate
  rw [FS.next_of_no_faults fs hf]
  simp [hp]

theorem osStat_of_no_faults (fs : FS) (path : String) (c : Bytes) (hf : fs.faults = [])
    (hp : path ≠ "") (hd : fs.data path = some c) : osStat fs path = (some c.length, fs) := by
  unfold osStat
  rw [FS.next_of_no_faults fs hf]
  simp [hp, hd]

theorem osOpen_of_no_faults (fs : FS) (path : String) (hf : fs.faults = [])
    (hp : path ≠ "") : osOpen fs path = (fs.data path, fs) := by
  unfold osOpen
  rw [FS.next_of_no_faults fs hf]
  simp [hp]

theorem streamContent_cons (c : FileChunk) (cs : List FileChunk) :
    streamContent (c :: cs) = c.Content ++ streamContent cs := rfl

/-- Once the destination file is open and holds `acc`, a fault-free run of the
receive loop to end-of-stream appends every remaining chunk and records the
file. -/
theorem UploadFile.loop_eof_of_no_faults (env : Env) (tGen tDone : Int) (closeFails : Bool)
    (s : StorageNodeServer) (id path : String) (hp : path ≠ "") (chunks : List FileChunk) :
    ∀ (fs : FS) (acc : Bytes), fs.faults = [] → fs.data path = some acc →
      (UploadFile.loop env tGen tDone RecvEnd.eof closeFails s fs
          ⟨id, path, some path, false⟩ chunks).server
        = { s with files := (s.files.insert id
              ⟨path, (acc ++ streamContent chunks).length, tDone, true⟩) } ∧
      (UploadFile.loop env tGen tDone RecvEnd.eof closeFails s fs
          ⟨id, path, some path, false⟩ chunks).fs.data path
        = some (acc ++ streamContent chunks) ∧
      (UploadFile.loop env tGen tDone RecvEnd.eof closeFails s fs
          ⟨id, path, some path, false⟩ chunks).fs.faults = [] ∧
      (∀ q, q ≠ path →
        (UploadFile.loop env tGen tDone RecvEnd.eof closeFails s fs
          ⟨id, path, some path, false⟩ chunks).fs.data q = fs.data q) ∧
      (UploadFile.loop env tGen tDone RecvEnd.eof closeFails s fs
          ⟨id, path, some path, false⟩ chunks).sent
        = some ⟨true, id, "Base64 file uploaded successfully"⟩ ∧
      (UploadFile.loop env tGen tDone RecvEnd.eof closeFails s fs
          ⟨id, path, some path, false⟩ chunks).err
        = (if closeFails then some RpcError.sendFailed else none) := by
  induction chunks with
  | nil =>
    intro fs acc hf hd
    have hs := osStat_of_no_faults fs path acc hf hp hd
    simp [UploadFile.loop, hs, streamContent, hd, hf]
  | cons c cs ih =>
    intro fs acc hf hd
    have hw := osWrite_of_no_faults fs path acc c.Content hf hd
    have hstep : UploadFile.loop env tGen tDone RecvEnd.eof closeFails s fs
          ⟨id, path, some path, false⟩ (c :: cs)
        = UploadFile.loop env tGen tDone RecvEnd.eof closeFails s
            (fs.put path (acc ++ c.Content)) ⟨id, path, some path, false⟩ cs := by
      rw [UploadFile.loop]
      simp [UploadFile.first, hw]
    rw [hstep]
    have h := ih (fs.put path (acc ++ c.Content)) (acc ++ c.Content) hf
      (FS.put_data_same _ _ _)
    rw [streamContent_cons, ← List.append_assoc]
    refine ⟨h.1, h.2.1, h.2.2.1, ?_, h.2.2.2.2.1, h.2.2.2.2.2⟩
    intro q hq
    rw [h.2.2.2.1 q hq]
    simp [FS.put, hq]

theorem b64_name_ne_empty (id : String) : id ++ ".b64" ≠ "" := by
  intro h
  have h1 := congrArg String.length h
  simp at h1
  exact absurd h1.2 (by decide)

/-- What a fault-free upload of at least one chunk that ends normally does:
the file at the identifier's path holds exactly the received bytes, the index
maps the identifier to that path and size, other files are untouched, and a
success response carrying the identifier is handed to the stream. -/
theorem UploadFile_eof_of_no_faults (env : Env) (tGen tDone : Int) (s : StorageNodeServer)
    (fs : FS) (c : FileChunk) (cs : List FileChunk) (closeFails : Bool)
    (hf : fs.faults = []) :
    (UploadFile env tGen tDone s fs ⟨c :: cs, RecvEnd.eof, closeFails⟩).server
      = { s with files := (s.files.insert (uploadIdentifier env tGen s (c :: cs))
            ⟨env.Join s.storagePath (uploadIdentifier env tGen s (c :: cs) ++ ".b64"),
              (streamContent (c :: cs)).length, tDone, true⟩) } ∧
    (UploadFile env tGen tDone s fs ⟨c :: cs, RecvEnd.eof, closeFails⟩).fs.data
        (env.Join s.storagePath (uploadIdentifier env tGen s (c :: cs) ++ ".b64"))
      = some (streamContent (c :: cs)) ∧
    (UploadFile env tGen tDone s fs ⟨c :: cs, RecvEnd.eof, closeFails⟩).fs.faults = [] ∧
    (∀ q, q ≠ env.Join s.storagePath (uploadIdentifier env tGen s (c :: cs) ++ ".b64") →
      (UploadFile env tGen tDone s fs ⟨c :: cs, RecvEnd.eof, closeFails⟩).fs.data q
        = fs.data q) ∧
    (UploadFile env tGen tDone s fs ⟨c :: cs, RecvEnd.eof, closeFails⟩).sent
      = some ⟨true, uploadIdentifier env tGen s (c :: cs),
          "Base64 file uploaded successfully"⟩ ∧
    (UploadFile env tGen tDone s fs ⟨c :: cs, RecvEnd.eof, closeFails⟩).err
      = (if closeFails then some RpcError.sendFailed else none) := by
  generalize hid : uploadIdentifier env tGen s (c :: cs) = id
  have hp : env.Join s.storagePath (id ++ ".b64") ≠ "" :=
    env.Join_ne_empty _ _ (b64_name_ne_empty _)
  generalize hP : env.Join s.storagePath (id ++ ".b64") = P at hp
  have hc := osCreate_of_no_faults fs P hf hp
  have hw : osWrite (fs.put P []) (some P) c.Content = (true, (fs.put P []).put P c.Content) := by
    have h0 := osWrite_of_no_faults (fs.put P []) P [] c.Content hf (FS.put_data_same _ _ _)
    simpa using h0
  have hstep : UploadFile env tGen tDone s fs ⟨c :: cs, RecvEnd.eof, closeFails⟩
      = UploadFile.loop env tGen tDone RecvEnd.eof closeFails s
          ((fs.put P []).put P c.Content) ⟨id, P, some P, false⟩ cs := by
    unfold UploadFile
    dsimp only
    rw [UploadFile.loop]
    simp only [uploadIdentifier] at hid
    simp only [UploadFile.first, hid, hP]
    simp [hc, hw]
  rw [hstep]
  have h := UploadFile.loop_eof_of_no_faults env tGen tDone closeFails s id P hp cs
    ((fs.put P []).put P c.Content) c.Content hf (FS.put_data_same _ _ _)
  rw [streamContent_cons]
  refine ⟨h.1, h.2.1, h.2.2.1, ?_, h.2.2.2.2.1, h.2.2.2.2.2⟩
  intro q hq
  rw [h.2.2.2.1 q hq]
  simp [FS.put, hq]

/-! ## Reading a file in blocks -/

theorem blocksAux_flatten {α : Type} (n : Nat) (hn : 0 < n) :
    ∀ (fuel : Nat) (data : List α), data.length ≤ fuel → (blocksAux n fuel data).flatten = data := by
  intro fuel
  induction fuel with
  | zero =>
    intro data h
    have h0 : data = [] := List.length_eq_zero.mp (Nat.le_zero.mp h)
    subst h0
    rfl
  | succ fuel ih =>
    intro data h
    cases data with
    | nil => rfl
    | cons x xs =>
      have hl : ((x :: xs).drop n).length ≤ fuel := by
        rw [List.length_drop]
        simp only [List.length_cons] at h ⊢
        omega
      simp only [blocksAux, List.flatten_cons, ih _ hl, List.take_append_drop]

theorem blocks_flatten {α : Type} (n : Nat) (hn : 0 < n) (data : List α) :
    (blocks n data).flatten = data :=
  blocksAux_flatten n hn data.length data (Nat.le_refl _)

theorem blocksAux_block_length {α : Type} (n : Nat) :
    ∀ (fuel : Nat) (data : List α), ∀ b ∈ blocksAux n fuel data, b.length ≤ n := by
  intro fuel
  induction fuel with
  | zero => intro data b hb; simp [blocksAux] at hb
  | succ fuel ih =>
    intro data b hb
    cases data with
    | nil => simp [blocksAux] at hb
    | cons x xs =>
      simp only [blocksAux, List.mem_cons] at hb
      rcases hb with hb | hb
      · rw [hb, List.length_take]
        exact Nat.min_le_left _ _
      · exact ih _ b hb

theorem blocksAux_count {α : Type} (n : Nat) (hn : 0 < n) :
    ∀ (fuel : Nat) (data : List α),
      (blocksAux n fuel data).length * n ≤ data.length + (n - 1) := by
  intro fuel
  induction fuel with
  | zero => intro data; simp [blocksAux]
  | succ fuel ih =>
    intro data
    cases data with
    | nil => simp [blocksAux]
    | cons x xs =>
      have h := ih ((x :: xs).drop n)
      rw [List.length_drop] at h
      simp only [blocksAux, List.length_cons, Nat.succ_mul] at h ⊢
      by_cases hlt : xs.length + 1 ≤ n
      · have hnil : (x :: xs).drop n = [] := List.drop_eq_nil_of_le (by simpa using hlt)
        rw [hnil] at h ⊢
        have h0 : (blocksAux n fuel ([] : List α)).length = 0 := by
          cases fuel <;> rfl
        rw [h0]
        omega
      · omega

theorem blocksAux_count_ge {α : Type} (n : Nat) (hn : 0 < n) :
    ∀ (fuel : Nat) (data : List α), data.length ≤ fuel →
      data.length ≤ (blocksAux n fuel data).length * n := by
  intro fuel
  induction fuel with
  | zero => intro data h; omega
  | succ fuel ih =>
    intro data h
    cases data with
    | nil => simp
    | cons x xs =>
      have hl : ((x :: xs).drop n).length ≤ fuel := by
        rw [List.length_drop]
        simp only [List.length_cons] at h ⊢
        omega
      have h1 := ih _ hl
      rw [List.length_drop] at h1
      have h2 : (blocksAux n (fuel + 1) (x :: xs)).length
          = (blocksAux n fuel ((x :: xs).drop n)).length + 1 := rfl
      rw [h2, Nat.succ_mul]
      omega

theorem blocksAux_replicate {α : Type} (n : Nat) (hn : 0 < n) (x : α) :
    ∀ (k fuel : Nat), n * k ≤ fuel →
      (blocksAux n fuel (List.replicate (n * k) x)).length = k := by
  intro k
  induction k with
  | zero =>
    intro fuel _
    cases fuel <;> rfl
  | succ k ih =>
    intro fuel hfuel
    have hmul : n * (k + 1) = (n * k + (n - 1)) + 1 := by
      rw [Nat.mul_succ]; omega
    cases fuel with
    | zero => omega
    | succ fuel =>
      have hdrop : (List.replicate (n * (k + 1)) x).drop n = List.replicate (n * k) x := by
        rw [List.drop_replicate, Nat.mul_succ, Nat.add_sub_cancel]
      have hcons : List.replicate (n * (k + 1)) x
          = x :: List.replicate (n * k + (n - 1)) x := by
        rw [hmul]; rfl
      have hstep : blocksAux n (fuel + 1) (List.replicate (n * (k + 1)) x)
          = (List.replicate (n * (k + 1)) x).take n
              :: blocksAux n fuel ((List.replicate (n * (k + 1)) x).drop n) := by
        rw [hcons]; rfl
      rw [hstep, hdrop, List.length_cons, ih fuel (by rw [Nat.mul_succ] at hfuel; omega)]

/-! ## Download -/

theorem numbered_length (fileID : String) (bs : List Bytes) :
    ∀ k, (numbered fileID k bs).length = bs.length := by
  induction bs with
  | nil => intro k; rfl
  | cons b r ih => intro k; simp [numbered, ih]

theorem numbered_map_Content (fileID : String) (bs : List Bytes) :
    ∀ k, (numbered fileID k bs).map FileChunk.Content = bs := by
  induction bs with
  | nil => intro k; rfl
  | cons b r ih => intro k; simp [numbered, ih]

theorem numbered_FileId (fileID : String) (bs : List Bytes) :
    ∀ k, ∀ c ∈ numbered fileID k bs, c.FileId = fileID := by
  induction bs with
  | nil => intro k c hc; simp [numbered] at hc
  | cons b r ih =>
    intro k c hc
    simp only [numbered, List.mem_cons] at hc
    rcases hc with hc | hc
    · rw [hc]
    · exact ih _ c hc

theorem numbered_getElem? (fileID : String) (bs : List Bytes) :
    ∀ (k i : Nat), (numbered fileID k bs)[i]?
      = bs[i]?.map (fun b => (⟨fileID, b, toInt32 (k + i + 1)⟩ : FileChunk)) := by
  induction bs with
  | nil => intro k i; simp [numbered]
  | cons b r ih =>
    intro k i
    cases i with
    | zero => simp [numbered]
    | succ i =>
      have hcast : ((k + 1 : Nat) : Int) + (i : Int) + 1 = (k : Int) + ((i + 1 : Nat) : Int) + 1 := by
        push_cast
        omega
      simp only [numbered, List.getElem?_cons_succ, ih, hcast]

/-- Whatever fails, the chunks sent are an initial part of the numbered blocks. -/
theorem DownloadFile.loop_emitted_take (fileID : String) (sendFailAt : Option Nat)
    (bs : List Bytes) :
    ∀ (fs : FS) (k : Nat), ∃ j,
      (DownloadFile.loop fileID sendFailAt fs k bs).emitted = (numbered fileID k bs).take j := by
  induction bs with
  | nil =>
    intro fs k
    refine ⟨0, ?_⟩
    unfold DownloadFile.loop
    split <;> rfl
  | cons b r ih =>
    intro fs k
    unfold DownloadFile.loop
    split
    · exact ⟨0, rfl⟩
    · split
      · exact ⟨0, rfl⟩
      · rename_i fs1 _ _
        obtain ⟨j, hj⟩ := ih fs1 (k + 1)
        refine ⟨j + 1, ?_⟩
        simp only [numbered, List.take_succ_cons, hj]

/-- With no failing read and no failing send the loop sends every block. -/
theorem DownloadFile.loop_of_no_faults (fileID : String) (bs : List Bytes) :
    ∀ (fs : FS) (k : Nat), fs.faults = [] →
      DownloadFile.loop fileID none fs k bs = ⟨fs, numbered fileID k bs, none⟩ := by
  induction bs with
  | nil =>
    intro fs k hf
    unfold DownloadFile.loop
    rw [FS.next_of_no_faults fs hf]
    rfl
  | cons b r ih =>
    intro fs k hf
    unfold DownloadFile.loop
    rw [FS.next_of_no_faults fs hf]
    simp [ih fs (k + 1) hf, numbered]

theorem numbered_take (fileID : String) (bs : List Bytes) :
    ∀ (k j : Nat), (numbered fileID k bs).take j = numbered fileID k (bs.take j) := by
  induction bs with
  | nil => intro k j; simp [numbered]
  | cons b r ih =>
    intro k j
    cases j with
    | zero => simp [numbered]
    | succ j => simp [numbered, ih]

theorem toInt32_of_lt (n : Int) (h0 : 0 ≤ n) (h1 : n < 2147483648) : toInt32 n = n := by
  unfold toInt32
  omega

theorem numbered_map_ChunkNumber (fileID : String) (bs : List Bytes) :
    ∀ k : Nat, k + bs.length < 2147483648 →
      (numbered fileID k bs).map FileChunk.ChunkNumber
        = (List.range bs.length).map (fun i : Nat => (k : Int) + (i : Int) + 1) := by
  induction bs with
  | nil => intro k _; rfl
  | cons b r ih =>
    intro k hk
    simp only [List.length_cons] at hk
    have hfun : (fun i : Nat => ((k + 1 : Nat) : Int) + (i : Int) + 1)
        = (fun i : Nat => (k : Int) + (i : Int) + 1) ∘ Nat.succ := by
      funext i
      simp only [Function.comp]
      push_cast
      omega
    rw [List.length_cons, List.range_succ_eq_map, List.map_cons, List.map_map, ← hfun,
      ← ih (k + 1) (by omega)]
    simp only [numbered, List.map_cons]
    rw [toInt32_of_lt _ (by omega) (by omega)]
    simp

theorem FS.next_data (fs : FS) : fs.next.2.data = fs.data := by
  unfold FS.next
  split <;> rfl

theorem osOpen_some (fs fs1 : FS) (path : String) (c : Bytes)
    (h : osOpen fs path = (some c, fs1)) : fs.data path = some c := by
  unfold osOpen at h
  have hd := FS.next_data fs
  cases hn : fs.next with
  | mk fault fs0 =>
    rw [hn] at h hd
    dsimp only at h hd
    split at h
    · simp at h
    · simp only [Prod.mk.injEq] at h
      rw [← hd]
      exact h.1

theorem DownloadFile.loop_complete (fileID : String) (sendFailAt : Option Nat)
    (bs : List Bytes) :
    ∀ (fs : FS) (k : Nat), (DownloadFile.loop fileID sendFailAt fs k bs).err = none →
      (DownloadFile.loop fileID sendFailAt fs k bs).emitted = numbered fileID k bs := by
  induction bs with
  | nil =>
    intro fs k _
    unfold DownloadFile.loop
    split <;> rfl
  | cons b r ih =>
    intro fs k
    unfold DownloadFile.loop
    split
    · intro h; simp at h
    · split
      · intro h; simp at h
      · rename_i fs1 _ _
        intro h
        simp only [numbered]
        rw [ih fs1 (k + 1) h]

theorem hugeFile_blocks : (blocks (1024 * 1024) hugeFile).length = 2147483648 := by
  unfold blocks hugeFile
  rw [List.length_replicate]
  exact blocksAux_replicate 1048576 (by decide) 0 2147483648 (1048576 * 2147483648)
    (Nat.le_refl _)

/-- Claim C8 as stated fails for a file of 2^31 blocks: the chunk that follows
number 2147483647 carries the `int32` value -2147483648, not 2147483648. -/
theorem DownloadFile_chunkNumber_wraps :
    ((DownloadFile hugeServer hugeFS ⟨"big"⟩ none).emitted.map FileChunk.ChunkNumber)[2147483647]?
      = some (-2147483648) := by
  have hl : hugeServer.files.lookup "big"
      = some ⟨"root/big.b64", 1048576 * 2147483648, 0, true⟩ := by decide
  have ho : osOpen hugeFS "root/big.b64" = (some hugeFile, hugeFS) := by
    rw [osOpen_of_no_faults hugeFS "root/big.b64" rfl (by decide)]
    rfl
  have hD : (DownloadFile hugeServer hugeFS ⟨"big"⟩ none).emitted
      = numbered "big" 0 (blocks (1024 * 1024) hugeFile) := by
    unfold DownloadFile
    simp only [hl, ho]
    rw [DownloadFile.loop_of_no_faults "big" _ hugeFS 0 rfl]
  have hlt : 2147483647 < (blocks (1024 * 1024) hugeFile).length := by
    rw [hugeFile_blocks]
    decide
  rw [hD, List.getElem?_map, numbered_getElem?, List.getElem?_eq_getElem hlt]
  simp only [Option.map_some']
  decide

/-- Downloading an identifier whose record points at an existing file, with no
filesystem failure and no failing send: every block of the file is sent. -/
theorem DownloadFile_of_stored (s : StorageNodeServer) (fs : FS) (id : String)
    (m : fileMetadata) (content : Bytes) (hl : s.files.lookup id = some m)
    (hp : m.filePath ≠ "") (hd : fs.data m.filePath = some content) (hf : fs.faults = []) :
    DownloadFile s fs ⟨id⟩ none = ⟨fs, numbered id 0 (blocks 1048576 content), none⟩ := by
  unfold DownloadFile
  simp only [hl]
  rw [osOpen_of_no_faults fs _ hf hp, hd]
  simp only []
  exact DownloadFile.loop_of_no_faults id _ fs 0 hf

/-- On a filesystem without failures, when the send of chunk `k + j + 1` is the
one that fails, the loop started at counter `k` sends exactly the first `j`
blocks and returns the send error. -/
theorem DownloadFile.loop_send_failure (fileID : String) (bs : List Bytes) :
    ∀ (fs : FS) (k j : Nat), fs.faults = [] → j < bs.length →
      DownloadFile.loop fileID (some (k + j + 1)) fs k bs
        = ⟨fs, numbered fileID k (bs.take j), some RpcError.sendFailed⟩ := by
  induction bs with
  | nil => intro fs k j _ hj; simp at hj
  | cons b r ih =>
    intro fs k j hf hj
    unfold DownloadFile.loop
    rw [FS.next_of_no_faults fs hf]
    cases j with
    | zero => simp [numbered]
    | succ j =>
      have hne : ¬ (k + (j + 1) + 1 = k + 1) := by omega
      have hk : k + (j + 1) + 1 = (k + 1) + j + 1 := by omega
      simp only [Option.some.injEq, hne, if_false, List.take_succ_cons, numbered]
      rw [hk, ih fs (k + 1) j hf (by simpa using hj)]

/-- Claim C8, amended: for an identifier present in the index whose file holds
at most 2,147,483,647 blocks of 1 MiB and opens and reads without error (no
filesystem failure, a non-empty recorded path), `DownloadFile` with no failing
send returns without error and emits one chunk per block of the file: the
chunk numbers are exactly 1, 2, ..., k in emission order with k the number of
blocks, every chunk carries the requested identifier, and the payloads are the
blocks of at most 1,048,576 bytes of the file in file order, concatenating to
the file. When the send of chunk `j + 1` fails instead, exactly the first `j`
blocks are emitted. Whatever fails, the chunks emitted are numbered 1, 2, ...
without gaps, carry the requested identifier and are an initial part of the
blocks of the file. -/
theorem DownloadFile_chunk_sequence (s : StorageNodeServer) (fs : FS) (req : FileRequest)
    (sendFailAt : Option Nat) (m : fileMetadata) (content : Bytes)
    (hl : s.files.lookup req.FileId = some m) (hd : fs.data m.filePath = some content)
    (hsize : content.length ≤ 2147483647 * 1048576) :
    (fs.faults = [] → m.filePath ≠ "" → sendFailAt = none →
      (DownloadFile s fs req sendFailAt).err = none ∧
      (DownloadFile s fs req sendFailAt).emitted.length = (blocks 1048576 content).length ∧
      (DownloadFile s fs req sendFailAt).emitted.map FileChunk.ChunkNumber
        = (List.range (blocks 1048576 content).length).map (fun i : Nat => (i : Int) + 1) ∧
      (DownloadFile s fs req sendFailAt).emitted.map FileChunk.Content
        = blocks 1048576 content ∧
      ((DownloadFile s fs req sendFailAt).emitted.map FileChunk.Content).flatten = content) ∧
    (∀ j, fs.faults = [] → m.filePath ≠ "" → sendFailAt = some (j + 1) →
      j < (blocks 1048576 content).length →
      (DownloadFile s fs req sendFailAt).err = some RpcError.sendFailed ∧
      (DownloadFile s fs req sendFailAt).emitted.map FileChunk.Content
        = (blocks 1048576 content).take j) ∧
    (DownloadFile s fs req sendFailAt).emitted.map FileChunk.ChunkNumber
      = (List.range (DownloadFile s fs req sendFailAt).emitted.length).map
          (fun i : Nat => (i : Int) + 1) ∧
    (∀ c ∈ (DownloadFile s fs req sendFailAt).emitted,
      c.FileId = req.FileId ∧ c.Content.length ≤ 1048576) ∧
    (∃ j, (DownloadFile s fs req sendFailAt).emitted.map FileChunk.Content
      = (blocks 1048576 content).take j) ∧
    (blocks 1048576 content).flatten = content ∧
    ((DownloadFile s fs req sendFailAt).err = none →
      (DownloadFile s fs req sendFailAt).emitted.map FileChunk.Content
        = blocks 1048576 content) := by
  have hflat := blocks_flatten 1048576 (by decide) content
  have hcount : (blocks 1048576 content).length ≤ 2147483647 := by
    have h := blocksAux_count 1048576 (by decide) content.length content
    unfold blocks
    omega
  refine ⟨?_, ?_, ?_⟩
  · intro hf hp hsend
    subst hsend
    have hD : DownloadFile s fs req none
        = ⟨fs, numbered req.FileId 0 (blocks 1048576 content), none⟩ :=
      DownloadFile_of_stored s fs req.FileId m content hl hp hd hf
    rw [hD]
    refine ⟨rfl, numbered_length _ _ _, ?_, numbered_map_Content _ _ _, ?_⟩
    · show (numbered req.FileId 0 (blocks 1048576 content)).map FileChunk.ChunkNumber = _
      rw [numbered_map_ChunkNumber _ _ 0 (by omega)]
      simp
    · show ((numbered req.FileId 0 (blocks 1048576 content)).map FileChunk.Content).flatten = _
      rw [numbered_map_Content]
      exact hflat
  · intro j hf hp hsend hj
    subst hsend
    have hD : DownloadFile s fs req (some (j + 1))
        = ⟨fs, numbered req.FileId 0 ((blocks 1048576 content).take j),
            some RpcError.sendFailed⟩ := by
      unfold DownloadFile
      simp only [hl]
      rw [osOpen_of_no_faults fs _ hf hp, hd]
      simp only []
      have h := DownloadFile.loop_send_failure req.FileId (blocks 1048576 content) fs 0 j hf hj
      rw [Nat.zero_add] at h
      exact h
    rw [hD]
    exact ⟨rfl, numbered_map_Content _ _ _⟩
  cases ho : osOpen fs m.filePath with
  | mk oc fs1 =>
    cases oc with
    | none =>
      have hD : DownloadFile s fs req sendFailAt = ⟨fs1, [], some RpcError.openFailed⟩ := by
        simp [DownloadFile, hl, ho]
      rw [hD]
      refine ⟨rfl, ?_, ⟨0, rfl⟩, hflat, ?_⟩
      · intro c hc; simp at hc
      · intro h; simp at h
    | some c0 =>
      have hc0 : c0 = content := by
        have h := osOpen_some fs fs1 m.filePath c0 ho
        rw [hd] at h
        exact (Option.some.inj h).symm
      subst hc0
      have hD : DownloadFile s fs req sendFailAt
          = DownloadFile.loop req.FileId sendFailAt fs1 0 (blocks 1048576 c0) := by
        simp [DownloadFile, hl, ho]
      rw [hD]
      obtain ⟨j, hj⟩ := DownloadFile.loop_emitted_take req.FileId sendFailAt
        (blocks 1048576 c0) fs1 0
      rw [numbered_take] at hj
      have hjlen : ((blocks 1048576 c0).take j).length ≤ 2147483647 := by
        rw [List.length_take]
        omega
      refine ⟨?_, ?_, ⟨j, ?_⟩, hflat, ?_⟩
      · rw [hj, numbered_length, numbered_map_ChunkNumber _ _ 0 (by omega)]
        simp
      · intro c hc
        rw [hj] at hc
        refine ⟨numbered_FileId _ _ _ c hc, ?_⟩
        have hmem : c.Content ∈ (numbered req.FileId 0 ((blocks 1048576 c0).take j)).map
            FileChunk.Content := List.mem_map_of_mem _ hc
        rw [numbered_map_Content] at hmem
        exact blocksAux_block_length 1048576 _ _ _ (List.mem_of_mem_take hmem)
      · rw [hj, numbered_map_Content]
      · intro herr
        rw [DownloadFile.loop_complete _ _ _ _ _ herr, numbered_map_Content]

theorem twoBlockFile_blocks : (blocks 1048576 twoBlockFile).length = 2 := by
  have h1 := blocksAux_count 1048576 (by decide) twoBlockFile.length twoBlockFile
  have h2 := blocksAux_count_ge 1048576 (by decide) twoBlockFile.length twoBlockFile
    (Nat.le_refl _)
  have hlen : twoBlockFile.length = 1048579 := by
    unfold twoBlockFile
    rw [List.length_replicate]
  unfold blocks
  rw [hlen] at h1 h2 ⊢
  omega

/-- Downloading a stored file of 1 MiB and three bytes, no call failing: the
download returns without error and emits two chunks, numbered 1 and 2, both
tagged with the requested identifier. -/
theorem DownloadFile_chunk_sequence_witness :
    (DownloadFile twoBlockServer twoBlockFS ⟨"f"⟩ none).err = none ∧
    (DownloadFile twoBlockServer twoBlockFS ⟨"f"⟩ none).emitted.map FileChunk.ChunkNumber
      = [1, 2] ∧
    (DownloadFile twoBlockServer twoBlockFS ⟨"f"⟩ none).emitted.map FileChunk.FileId
      = ["f", "f"] := by
  have hsize : twoBlockFile.length ≤ 2147483647 * 1048576 := by
    unfold twoBlockFile
    rw [List.length_replicate]
    decide
  have h := DownloadFile_chunk_sequence twoBlockServer twoBlockFS ⟨"f"⟩ none
    ⟨"root/f.b64", 1048576 + 3, 0, true⟩ twoBlockFile (by decide) rfl hsize
  obtain ⟨herr, hlen, hnum, -, -⟩ := h.1 rfl (by decide) rfl
  have hids := h.2.2.2.1
  rw [twoBlockFile_blocks] at hlen hnum
  refine ⟨herr, ?_, ?_⟩
  · rw [hnum]
    decide
  · generalize (DownloadFile twoBlockServer twoBlockFS ⟨"f"⟩ none).emitted = e at hlen hids
    match e, hlen, hids with
    | [c1, c2], _, hids =>
      have e1 := (hids c1 (by simp)).1
      have e2 := (hids c2 (by simp)).1
      simp only [List.map_cons, List.map_nil, e1, e2]

/-! ## Round trip -/

/-- Claim C1: for every server state, every first-chunk identifier and every
non-empty chunk sequence, when the upload stream ends normally and no
filesystem call fails, a following `DownloadFile` of the returned identifier
completes without error and the payloads it emits, concatenated in emission
order, equal the concatenation of the uploaded contents (same bytes, same
total length). -/
theorem UploadFile_DownloadFile_roundtrip (env : Env) (tGen tDone : Int)
    (s : StorageNodeServer) (fs : FS) (c : FileChunk) (cs : List FileChunk)
    (closeFails : Bool) (hf : fs.faults = []) :
    (UploadFile env tGen tDone s fs ⟨c :: cs, RecvEnd.eof, closeFails⟩).sent
      = some ⟨true, uploadIdentifier env tGen s (c :: cs),
          "Base64 file uploaded successfully"⟩ ∧
    (DownloadFile (UploadFile env tGen tDone s fs ⟨c :: cs, RecvEnd.eof, closeFails⟩).server
        (UploadFile env tGen tDone s fs ⟨c :: cs, RecvEnd.eof, closeFails⟩).fs
        ⟨uploadIdentifier env tGen s (c :: cs)⟩ none).err = none ∧
    ((DownloadFile (UploadFile env tGen tDone s fs ⟨c :: cs, RecvEnd.eof, closeFails⟩).server
        (UploadFile env tGen tDone s fs ⟨c :: cs, RecvEnd.eof, closeFails⟩).fs
        ⟨uploadIdentifier env tGen s (c :: cs)⟩ none).emitted.map FileChunk.Content).flatten
      = ((c :: cs).map FileChunk.Content).flatten ∧
    ((DownloadFile (UploadFile env tGen tDone s fs ⟨c :: cs, RecvEnd.eof, closeFails⟩).server
        (UploadFile env tGen tDone s fs ⟨c :: cs, RecvEnd.eof, closeFails⟩).fs
        ⟨uploadIdentifier env tGen s (c :: cs)⟩ none).emitted.map
          FileChunk.Content).flatten.length
      = ((c :: cs).map (fun x => x.Content.length)).sum := by
  obtain ⟨hs, hdata, hfaults, -, hsent, -⟩ :=
    UploadFile_eof_of_no_faults env tGen tDone s fs c cs closeFails hf
  generalize UploadFile env tGen tDone s fs ⟨c :: cs, RecvEnd.eof, closeFails⟩ = up at *
  generalize uploadIdentifier env tGen s (c :: cs) = id at *
  have hp : env.Join s.storagePath (id ++ ".b64") ≠ "" :=
    env.Join_ne_empty _ _ (b64_name_ne_empty _)
  have hl : up.server.files.lookup id
      = some ⟨env.Join s.storagePath (id ++ ".b64"), (streamContent (c :: cs)).length,
          tDone, true⟩ := by
    rw [hs]
    exact AList.lookup_insert _
  rw [DownloadFile_of_stored up.server up.fs id _ _ hl hp hdata hfaults]
  simp only [numbered_map_Content, blocks_flatten 1048576 (by decide)]
  refine ⟨hsent, trivial, rfl, ?_⟩
  simp [streamContent, List.length_flatten, Function.comp_def]

/-- Uploading the chunks `[1, 2]` and `[3]` under `a` and downloading `a` gives `[1, 2, 3]`. -/
theorem UploadFile_DownloadFile_roundtrip_witness :
    ((DownloadFile
        (UploadFile refEnv 0 0 (NewStorageNodeServer "n" "root") FS.empty
          ⟨[⟨"a", [1, 2], 0⟩, ⟨"", [3], 0⟩], RecvEnd.eof, false⟩).server
        (UploadFile refEnv 0 0 (NewStorageNodeServer "n" "root") FS.empty
          ⟨[⟨"a", [1, 2], 0⟩, ⟨"", [3], 0⟩], RecvEnd.eof, false⟩).fs
        ⟨"a"⟩ none).emitted.map FileChunk.Content).flatten = [1, 2, 3] :=
  (UploadFile_DownloadFile_roundtrip refEnv 0 0 (NewStorageNodeServer "n" "root") FS.empty
    ⟨"a", [1, 2], 0⟩ [⟨"", [3], 0⟩] false rfl).2.2.1

/-! ## Uploads that report success without storing, and records left behind -/

/-- Claim C7 fails on the code for a stream of zero chunks: `UploadFile` hands
out a success response with the empty identifier while the index stays as it
was, so no record exists under the returned identifier. -/
theorem UploadFile_empty_stream (env : Env) (tGen tDone : Int) (s : StorageNodeServer)
    (fs : FS) (closeFails : Bool) :
    (UploadFile env tGen tDone s fs ⟨[], RecvEnd.eof, closeFails⟩).sent
      = some ⟨true, "", "Base64 file uploaded successfully"⟩ ∧
    (UploadFile env tGen tDone s fs ⟨[], RecvEnd.eof, closeFails⟩).server = s := by
  simp [UploadFile, UploadFile.loop, osStat]

/-- Claim C6 fails on the code: after a completed upload of identifier `a`, a
second upload of `a` that breaks off after one chunk leaves the record of the
first upload (size 2) in the index while the file at its location holds only
the single byte of the aborted upload. -/
theorem record_left_on_truncated_file :
    (UploadFile refEnv 0 0
        (UploadFile refEnv 0 0 (NewStorageNodeServer "n" "root") FS.empty
          ⟨[⟨"a", [1, 2], 0⟩], RecvEnd.eof, false⟩).server
        (UploadFile refEnv 0 0 (NewStorageNodeServer "n" "root") FS.empty
          ⟨[⟨"a", [1, 2], 0⟩], RecvEnd.eof, false⟩).fs
        ⟨[⟨"a", [3], 0⟩], RecvEnd.transportError, false⟩).server.files.lookup "a"
      = some ⟨"root/a.b64", 2, 0, true⟩ ∧
    (UploadFile refEnv 0 0
        (UploadFile refEnv 0 0 (NewStorageNodeServer "n" "root") FS.empty
          ⟨[⟨"a", [1, 2], 0⟩], RecvEnd.eof, false⟩).server
        (UploadFile refEnv 0 0 (NewStorageNodeServer "n" "root") FS.empty
          ⟨[⟨"a", [1, 2], 0⟩], RecvEnd.eof, false⟩).fs
        ⟨[⟨"a", [3], 0⟩], RecvEnd.transportError, false⟩).fs.data "root/a.b64"
      = some [3] := by
  decide

/-! ## Identifier determination -/

theorem hexDigit_mem (n : Nat) (h : n < 16) : hexDigit n ∈ "0123456789abcdef".toList := by
  revert n
  decide

theorem hexEncode_length (src : Bytes) :
    (hex.EncodeToString src).length = 2 * src.length := by
  unfold hex.EncodeToString
  rw [String.length_mk]
  induction src with
  | nil => rfl
  | cons b r ih =>
    simp only [List.flatMap_cons, List.length_append, List.length_cons, List.length_nil, ih]
    omega

theorem hexEncode_chars (src : Bytes) :
    ∀ ch ∈ (hex.EncodeToString src).toList, ch ∈ "0123456789abcdef".toList := by
  intro ch hch
  replace hch : ch ∈ src.flatMap
      (fun b => [hexDigit (b.toNat / 16), hexDigit (b.toNat % 16)]) := hch
  simp only [List.mem_flatMap, List.mem_cons, List.mem_singleton, List.not_mem_nil,
    or_false] at hch
  obtain ⟨b, -, hb⟩ := hch
  have hlt : b.toNat < 256 := b.val.isLt
  rcases hb with hb | hb
  · rw [hb]
    exact hexDigit_mem _ (by omega)
  · rw [hb]
    exact hexDigit_mem _ (Nat.mod_lt _ (by decide))

/-- After the first chunk the identifier no longer changes: any response the
loop sends carries the identifier held in the loop variables. -/
theorem UploadFile.loop_sent_FileId (env : Env) (tGen tDone : Int) (term : RecvEnd)
    (closeFails : Bool) (s : StorageNodeServer) (chunks : List FileChunk) :
    ∀ (fs : FS) (v : UploadVars), v.firstChunk = false →
      ∀ resp, (UploadFile.loop env tGen tDone term closeFails s fs v chunks).sent = some resp →
        resp.FileId = v.fileID := by
  induction chunks with
  | nil =>
    intro fs v _ resp h
    unfold UploadFile.loop at h
    split at h
    · split at h <;> simp at h <;> rw [← h]
    · simp at h
  | cons c cs ih =>
    intro fs v hv resp h
    unfold UploadFile.loop at h
    have hfirst : UploadFile.first env tGen s fs v c = (some v, fs) := by
      simp [UploadFile.first, hv]
    rw [hfirst] at h
    dsimp only at h
    split at h
    · simp at h
    · exact ih _ v hv resp h

/-- Claim C10: for an upload stream with at least one chunk, any response
`UploadFile` sends carries the first chunk's `FileId` when that is non-empty
(later chunks play no part) and otherwise the hex rendering of the SHA-256
digest of `<nodeID>-<time in nanoseconds>`; when the stream ends normally and
no filesystem call fails a response is sent, and the file is written and
recorded under that identifier; the generated identifier has exactly 64
characters, each among `0-9a-f`, and depends on the node id and the clock
reading only. -/
theorem UploadFile_identifier (env : Env) (tGen tDone : Int) (s : StorageNodeServer)
    (fs : FS) (c : FileChunk) (cs : List FileChunk) (term : RecvEnd) (closeFails : Bool) :
    (∀ resp, (UploadFile env tGen tDone s fs ⟨c :: cs, term, closeFails⟩).sent = some resp →
      resp.FileId = (if c.FileId = "" then
          hex.EncodeToString (env.Sum256 (stringBytes (s.nodeID ++ "-" ++ toString tGen)))
        else c.FileId)) ∧
    (fs.faults = [] → term = RecvEnd.eof →
      ((UploadFile env tGen tDone s fs ⟨c :: cs, term, closeFails⟩).sent.map
          UploadResponse.FileId
        = some (if c.FileId = "" then
            hex.EncodeToString (env.Sum256 (stringBytes (s.nodeID ++ "-" ++ toString tGen)))
          else c.FileId)) ∧
      ((UploadFile env tGen tDone s fs ⟨c :: cs, term, closeFails⟩).server.files.lookup
          (if c.FileId = "" then
            hex.EncodeToString (env.Sum256 (stringBytes (s.nodeID ++ "-" ++ toString tGen)))
          else c.FileId)).map fileMetadata.filePath
        = some (env.Join s.storagePath ((if c.FileId = "" then
            hex.EncodeToString (env.Sum256 (stringBytes (s.nodeID ++ "-" ++ toString tGen)))
          else c.FileId) ++ ".b64")) ∧
      ((UploadFile env tGen tDone s fs ⟨c :: cs, term, closeFails⟩).fs.data
          (env.Join s.storagePath ((if c.FileId = "" then
            hex.EncodeToString (env.Sum256 (stringBytes (s.nodeID ++ "-" ++ toString tGen)))
          else c.FileId) ++ ".b64"))).isSome = true) ∧
    (hex.EncodeToString (env.Sum256 (stringBytes (s.nodeID ++ "-" ++ toString tGen)))).length
      = 64 ∧
    (∀ ch ∈ (hex.EncodeToString
        (env.Sum256 (stringBytes (s.nodeID ++ "-" ++ toString tGen)))).toList,
      ch ∈ "0123456789abcdef".toList) := by
  refine ⟨?_, ?_, ?_, hexEncode_chars _⟩
  · intro resp h
    unfold UploadFile at h
    dsimp only at h
    unfold UploadFile.loop at h
    split at h
    · simp at h
    · rename_i v1 fs1 hfirst
      have hv1 : v1.firstChunk = false ∧ v1.fileID = (if c.FileId = "" then
          hex.EncodeToString (env.Sum256 (stringBytes (s.nodeID ++ "-" ++ toString tGen)))
        else c.FileId) := by
        simp only [UploadFile.first, if_true] at hfirst
        split at hfirst
        · simp at hfirst
        · simp only [Prod.mk.injEq, Option.some.injEq] at hfirst
          rw [← hfirst.1]
          exact ⟨rfl, rfl⟩
      split at h
      · simp at h
      · rw [← hv1.2]
        exact UploadFile.loop_sent_FileId env tGen tDone term closeFails s cs _ v1 hv1.1 resp h
  · intro hf hterm
    subst hterm
    obtain ⟨hs, hdata, -, -, hsent, -⟩ :=
      UploadFile_eof_of_no_faults env tGen tDone s fs c cs closeFails hf
    simp only [uploadIdentifier, generateFileID] at hs hdata hsent
    rw [hs, hdata, hsent]
    simp [AList.lookup_insert]
  · rw [hexEncode_length, env.Sum256_length]

/-- An upload without client identifier on the evaluation platform returns the generated one. -/
theorem UploadFile_identifier_witness :
    (UploadFile refEnv 5 6 (NewStorageNodeServer "n" "root") FS.empty
        ⟨[⟨"", [1], 0⟩, ⟨"later", [2], 0⟩], RecvEnd.eof, false⟩).sent.map UploadResponse.FileId
      = some "0000000000000000000000000000000000000000000000000000000000000000" :=
  ((UploadFile_identifier refEnv 5 6 (NewStorageNodeServer "n" "root") FS.empty
    ⟨"", [1], 0⟩ [⟨"later", [2], 0⟩] RecvEnd.eof false).2.1 rfl rfl).1

/-! ## The count of stored files over sequences of calls -/

theorem FS.Grows.rfl (fs : FS) (hf : fs.faults = []) : FS.Grows fs fs :=
  ⟨hf, fun _ h => h⟩

theorem FS.Grows.trans {a b c : FS} (h1 : FS.Grows a b) (h2 : FS.Grows b c) : FS.Grows a c :=
  ⟨h2.1, fun q h => h2.2 q (h1.2 q h)⟩

theorem FS.Grows.put (fs : FS) (hf : fs.faults = []) (p : String) (c : Bytes) :
    FS.Grows fs (fs.put p c) := by
  refine ⟨hf, ?_⟩
  intro q h
  by_cases hq : q = p <;> simp [FS.put, hq, h]

theorem osCreate_grows (fs : FS) (path : String) (hf : fs.faults = []) :
    FS.Grows fs (osCreate fs path).2 := by
  unfold osCreate
  rw [FS.next_of_no_faults fs hf]
  dsimp only
  split
  · exact FS.Grows.rfl fs hf
  · exact FS.Grows.put fs hf _ _

theorem osWrite_grows (fs : FS) (file : Option String) (b : Bytes) (hf : fs.faults = []) :
    FS.Grows fs (osWrite fs file b).2 := by
  unfold osWrite
  rw [FS.next_of_no_faults fs hf]
  dsimp only
  split
  · exact FS.Grows.rfl fs hf
  · simp only [Bool.false_eq_true, if_false]
    split
    · exact FS.Grows.rfl fs hf
    · exact FS.Grows.put fs hf _ _

theorem osStat_fs (fs : FS) (path : String) (hf : fs.faults = []) : (osStat fs path).2 = fs := by
  unfold osStat
  rw [FS.next_of_no_faults fs hf]
  dsimp only
  split <;> rfl

theorem UploadFile.first_grows (env : Env) (tGen : Int) (s : StorageNodeServer) (fs : FS)
    (v : UploadVars) (chunk : FileChunk) (hf : fs.faults = []) :
    FS.Grows fs (UploadFile.first env tGen s fs v chunk).2 := by
  unfold UploadFile.first
  split
  · have h := osCreate_grows fs (env.Join s.storagePath
      ((if chunk.FileId = "" then generateFileID env s.nodeID tGen else chunk.FileId)
        ++ ".b64")) hf
    dsimp only
    split
    · rename_i heq; rw [heq] at h; exact h
    · rename_i heq; rw [heq] at h; exact h
  · exact FS.Grows.rfl fs hf

/-- On a filesystem without pending failures an upload, however it ends,
leaves none pending and removes no file. -/
theorem UploadFile.loop_grows (env : Env) (tGen tDone : Int) (term : RecvEnd)
    (closeFails : Bool) (s : StorageNodeServer) (chunks : List FileChunk) :
    ∀ (fs : FS) (v : UploadVars), fs.faults = [] →
      FS.Grows fs (UploadFile.loop env tGen tDone term closeFails s fs v chunks).fs := by
  induction chunks with
  | nil =>
    intro fs v hf
    unfold UploadFile.loop
    have hs := osStat_fs fs v.filePath hf
    split
    · split
      · rename_i heq; rw [heq] at hs; dsimp only at hs ⊢; rw [hs]; exact FS.Grows.rfl fs hf
      · rename_i heq; rw [heq] at hs; dsimp only at hs ⊢; rw [hs]; exact FS.Grows.rfl fs hf
    · exact FS.Grows.rfl fs hf
  | cons c cs ih =>
    intro fs v hf
    unfold UploadFile.loop
    have h1 := UploadFile.first_grows env tGen s fs v c hf
    split
    · rename_i heq; rw [heq] at h1; exact h1
    · rename_i v1 fs1 heq
      rw [heq] at h1
      dsimp only at h1
      have h2 := osWrite_grows fs1 v1.file c.Content h1.1
      split
      · rename_i heq2; rw [heq2] at h2; exact h1.trans h2
      · rename_i fs2 heq2
        rw [heq2] at h2
        exact h1.trans (h2.trans (ih fs2 v1 h2.1))

theorem DownloadFile.loop_fs_of_no_faults (fileID : String) (sendFailAt : Option Nat)
    (bs : List Bytes) :
    ∀ (fs : FS) (k : Nat), fs.faults = [] →
      (DownloadFile.loop fileID sendFailAt fs k bs).fs = fs := by
  induction bs with
  | nil =>
    intro fs k hf
    unfold DownloadFile.loop
    rw [FS.next_of_no_faults fs hf]
  | cons b r ih =>
    intro fs k hf
    unfold DownloadFile.loop
    rw [FS.next_of_no_faults fs hf]
    dsimp only
    split
    · rfl
    · exact ih fs (k + 1) hf

/-- On a filesystem without pending failures a download changes nothing. -/
theorem DownloadFile_fs_of_no_faults (s : StorageNodeServer) (fs : FS) (req : FileRequest)
    (sendFailAt : Option Nat) (hf : fs.faults = []) :
    (DownloadFile s fs req sendFailAt).fs = fs := by
  unfold DownloadFile
  split
  · rfl
  · rename_i m _
    have ho : (osOpen fs m.filePath).2 = fs := by
      unfold osOpen
      rw [FS.next_of_no_faults fs hf]
      dsimp only
      split <;> rfl
    split
    · rename_i heq; rw [heq] at ho; exact ho
    · rename_i heq
      rw [heq] at ho
      dsimp only at ho
      rw [ho]
      exact DownloadFile.loop_fs_of_no_faults _ _ _ fs 0 hf

theorem osRemove_of_no_faults (fs : FS) (path : String) (hf : fs.faults = [])
    (hp : path ≠ "") (hd : (fs.data path).isSome = true) :
    osRemove fs path = (true, fs.del path) := by
  unfold osRemove
  rw [FS.next_of_no_faults fs hf]
  cases hc : fs.data path with
  | none => rw [hc] at hd; simp at hd
  | some c => simp [hp, hc]

theorem step_upload_eof (env : Env) (w : World) (tGen tDone : Int) (c : FileChunk)
    (cs : List FileChunk) (hw : w.Consistent)
    (hnew : uploadIdentifier env tGen w.server (c :: cs) ∉ w.server.files)
    (hpath : ∀ e ∈ w.server.files.entries, e.2.filePath ≠
      env.Join w.server.storagePath (uploadIdentifier env tGen w.server (c :: cs) ++ ".b64")) :
    (step env w (Call.upload tGen tDone ⟨c :: cs, RecvEnd.eof, false⟩)).Consistent ∧
    (step env w (Call.upload tGen tDone ⟨c :: cs, RecvEnd.eof, false⟩)).server.files.keys.length
      = w.server.files.keys.length + 1 ∧
    uploadSucceeded env w (Call.upload tGen tDone ⟨c :: cs, RecvEnd.eof, false⟩) = true := by
  obtain ⟨hs, hdata, hfaults, hother, hsent, herr⟩ :=
    UploadFile_eof_of_no_faults env tGen tDone w.server w.fs c cs false hw.1
  have hP : env.Join w.server.storagePath
      (uploadIdentifier env tGen w.server (c :: cs) ++ ".b64") ≠ "" :=
    env.Join_ne_empty _ _ (b64_name_ne_empty _)
  simp only [step, uploadSucceeded]
  generalize UploadFile env tGen tDone w.server w.fs ⟨c :: cs, RecvEnd.eof, false⟩ = r at *
  generalize uploadIdentifier env tGen w.server (c :: cs) = ID at *
  generalize env.Join w.server.storagePath (ID ++ ".b64") = P at *
  refine ⟨⟨hfaults, ?_⟩, ?_, ?_⟩
  · intro id m hm
    dsimp only at hm ⊢
    rw [hs] at hm ⊢
    dsimp only at hm ⊢
    by_cases hid : id = ID
    · subst hid
      rw [AList.lookup_insert] at hm
      have hm2 := (Option.some.inj hm).symm
      subst hm2
      refine ⟨hP, by rw [hdata]; rfl, ?_⟩
      intro id2 m2 hm2 hp2
      by_contra hne
      rw [AList.lookup_insert_ne hne] at hm2
      exact hpath ⟨id2, m2⟩ (AList.mem_lookup_iff.mp hm2) hp2
    · rw [AList.lookup_insert_ne hid] at hm
      obtain ⟨h1, h2, h3⟩ := hw.2 id m hm
      have hmP : m.filePath ≠ P := hpath ⟨id, m⟩ (AList.mem_lookup_iff.mp hm)
      refine ⟨h1, by rw [hother _ hmP]; exact h2, ?_⟩
      intro id2 m2 hm2 hp2
      by_cases hid2 : id2 = ID
      · subst hid2
        rw [AList.lookup_insert] at hm2
        have hm3 := (Option.some.inj hm2).symm
        subst hm3
        exact absurd hp2.symm hmP
      · rw [AList.lookup_insert_ne hid2] at hm2
        exact h3 id2 m2 hm2 hp2
  · rw [hs]
    dsimp only
    rw [AList.keys_insert, List.length_cons,
      List.erase_of_not_mem (fun h => hnew (AList.mem_keys.mpr h))]
  · rw [hsent, herr]
    rfl

theorem step_upload_abort (env : Env) (w : World) (tGen tDone : Int)
    (chunks : List FileChunk) (closeFails : Bool) (hw : w.Consistent) :
    (step env w (Call.upload tGen tDone ⟨chunks, RecvEnd.transportError, closeFails⟩)).Consistent ∧
    (step env w (Call.upload tGen tDone
      ⟨chunks, RecvEnd.transportError, closeFails⟩)).server.files.keys.length
      = w.server.files.keys.length ∧
    uploadSucceeded env w (Call.upload tGen tDone ⟨chunks, RecvEnd.transportError, closeFails⟩)
      = false := by
  obtain ⟨hs, hsent, -⟩ := UploadFile.loop_transportError env tGen tDone closeFails w.server
    chunks w.fs ⟨"", "", none, true⟩
  have hg := UploadFile.loop_grows env tGen tDone RecvEnd.transportError closeFails w.server
    chunks w.fs ⟨"", "", none, true⟩ hw.1
  simp only [step, uploadSucceeded, UploadFile]
  rw [hs, hsent]
  refine ⟨⟨hg.1, ?_⟩, rfl, rfl⟩
  intro id m hm
  obtain ⟨h1, h2, h3⟩ := hw.2 id m hm
  exact ⟨h1, hg.2 _ h2, h3⟩

theorem step_delete (env : Env) (w : World) (req : FileRequest) (hw : w.Consistent) :
    (step env w (Call.delete req)).Consistent ∧
    (step env w (Call.delete req)).server.files.keys.length
        + (if deleteSucceeded w (Call.delete req) then 1 else 0)
      = w.server.files.keys.length := by
  simp only [step, deleteSucceeded]
  cases hl : w.server.files.lookup req.FileId with
  | none =>
    have hD : DeleteFile w.server w.fs req
        = ⟨w.server, w.fs, ⟨false, "File not found: " ++ req.FileId⟩, none⟩ := by
      simp [DeleteFile, hl]
    simp only [hD]
    exact ⟨hw, by simp⟩
  | some m =>
    obtain ⟨h1, h2, h3⟩ := hw.2 req.FileId m hl
    have hmem : req.FileId ∈ w.server.files := AList.lookup_isSome.mp (by rw [hl]; rfl)
    have hD : DeleteFile w.server w.fs req
        = ⟨{ w.server with files := w.server.files.erase req.FileId }, w.fs.del m.filePath,
            ⟨true, "File deleted successfully"⟩, none⟩ := by
      simp [DeleteFile, hl, osRemove_of_no_faults w.fs m.filePath hw.1 h1 h2]
    simp only [hD]
    refine ⟨⟨hw.1, ?_⟩, ?_⟩
    · intro id m1 hm1
      dsimp only at hm1
      have hid : id ≠ req.FileId := by
        intro h
        rw [h, AList.lookup_erase] at hm1
        exact Option.noConfusion hm1
      rw [AList.lookup_erase_ne hid] at hm1
      obtain ⟨g1, g2, g3⟩ := hw.2 id m1 hm1
      have hne : m1.filePath ≠ m.filePath := fun h => hid (h3 id m1 hm1 h)
      refine ⟨g1, by simpa [FS.del, hne] using g2, ?_⟩
      intro id2 m2 hm2 hp2
      have hid2 : id2 ≠ req.FileId := by
        intro h
        rw [h, AList.lookup_erase] at hm2
        exact Option.noConfusion hm2
      rw [AList.lookup_erase_ne hid2] at hm2
      exact g3 id2 m2 hm2 hp2
    · rw [AList.keys_erase, List.length_erase_of_mem (AList.mem_keys.mp hmem)]
      have : 0 < w.server.files.keys.length := List.length_pos_of_mem (AList.mem_keys.mp hmem)
      simp only [if_true]
      omega

/-- One regular call keeps the state consistent and changes the number of
records by the successful upload or delete it performs. -/
theorem step_regular (env : Env) (w : World) (c : Call) (hw : w.Consistent)
    (hc : regularCall env w c = true) :
    (step env w c).Consistent ∧
    (step env w c).server.files.keys.length + (if deleteSucceeded w c then 1 else 0)
      = w.server.files.keys.length + (if uploadSucceeded env w c then 1 else 0) := by
  cases c with
  | upload tGen tDone stream =>
    obtain ⟨chunks, term, closeFails⟩ := stream
    cases term with
    | eof =>
      have h := of_decide_eq_true hc rfl
      dsimp only at h
      obtain ⟨hne, hcf, hnew, hpath⟩ := h
      subst hcf
      cases chunks with
      | nil => exact absurd rfl hne
      | cons c0 cs =>
        obtain ⟨g1, g2, g3⟩ := step_upload_eof env w tGen tDone c0 cs hw hnew hpath
        refine ⟨g1, ?_⟩
        rw [g2, g3]
        simp [deleteSucceeded]
    | transportError =>
      obtain ⟨g1, g2, g3⟩ := step_upload_abort env w tGen tDone chunks closeFails hw
      refine ⟨g1, ?_⟩
      rw [g2, g3]
      simp [deleteSucceeded]
  | download req sendFailAt =>
    simp only [step, deleteSucceeded, uploadSucceeded]
    rw [DownloadFile_fs_of_no_faults w.server w.fs req sendFailAt hw.1]
    exact ⟨hw, by simp⟩
  | delete req =>
    obtain ⟨g1, g2⟩ := step_delete env w req hw
    exact ⟨g1, by simpa [uploadSucceeded] using g2⟩
  | status disk =>
    exact ⟨hw, by simp [step, deleteSucceeded, uploadSucceeded]⟩

theorem run_regular (env : Env) (calls : List Call) :
    ∀ w : World, w.Consistent → regularRun env w calls = true →
      (run env w calls).server.files.keys.length + deleteSuccesses env w calls
        = w.server.files.keys.length + uploadSuccesses env w calls := by
  induction calls with
  | nil => intro w _ _; rfl
  | cons c cs ih =>
    intro w hw hr
    simp only [regularRun, Bool.and_eq_true] at hr
    obtain ⟨h1, h2⟩ := step_regular env w c hw hr.1
    have h3 := ih (step env w c) h1 hr.2
    simp only [run, deleteSuccesses, uploadSuccesses]
    omega

/-- Claim C5 as stated fails: after two successful uploads of the same
identifier `GetNodeStatus` reports one stored file, while two `UploadFile` calls
returned a success response and no delete took place. -/
theorem filesStored_after_second_upload_of_same_id :
    (GetNodeStatus (run refEnv ⟨NewStorageNodeServer "n" "root", FS.empty⟩
        [Call.upload 0 0 ⟨[⟨"a", [1], 0⟩], RecvEnd.eof, false⟩,
         Call.upload 0 0 ⟨[⟨"a", [2], 0⟩], RecvEnd.eof, false⟩]).server (some 0)).resp.map
        StatusResponse.FilesStored = some 1 ∧
    uploadSuccesses refEnv ⟨NewStorageNodeServer "n" "root", FS.empty⟩
        [Call.upload 0 0 ⟨[⟨"a", [1], 0⟩], RecvEnd.eof, false⟩,
         Call.upload 0 0 ⟨[⟨"a", [2], 0⟩], RecvEnd.eof, false⟩] = 2 ∧
    deleteSuccesses refEnv ⟨NewStorageNodeServer "n" "root", FS.empty⟩
        [Call.upload 0 0 ⟨[⟨"a", [1], 0⟩], RecvEnd.eof, false⟩,
         Call.upload 0 0 ⟨[⟨"a", [2], 0⟩], RecvEnd.eof, false⟩] = 0 := by
  decide

/-- Claim C5, amended: in every state reached from a freshly constructed server
by a finite sequence of completed calls on a filesystem whose operations do
not fail, where every upload that ends normally delivers at least one chunk
and its response and uses an identifier that has no record at that time and
whose file path no record uses, the number of records is the number of
successful uploads minus the number of successful deletes, and `GetNodeStatus`
reports its `int32` conversion as `filesStored` (the number itself below 2^31). -/
theorem filesStored_eq_uploads_minus_deletes (env : Env) (nodeID storagePath : String)
    (fs0 : FS) (calls : List Call) (disk : Nat) (hf : fs0.faults = [])
    (hr : regularRun env ⟨NewStorageNodeServer nodeID storagePath, fs0⟩ calls = true) :
    (run env ⟨NewStorageNodeServer nodeID storagePath, fs0⟩ calls).server.files.keys.length
        + deleteSuccesses env ⟨NewStorageNodeServer nodeID storagePath, fs0⟩ calls
      = uploadSuccesses env ⟨NewStorageNodeServer nodeID storagePath, fs0⟩ calls ∧
    (GetNodeStatus (run env ⟨NewStorageNodeServer nodeID storagePath, fs0⟩ calls).server
        (some disk)).resp.map StatusResponse.FilesStored
      = some (toInt32
          ((uploadSuccesses env ⟨NewStorageNodeServer nodeID storagePath, fs0⟩ calls : Int)
            - (deleteSuccesses env ⟨NewStorageNodeServer nodeID storagePath, fs0⟩ calls : Int))) ∧
    (uploadSuccesses env ⟨NewStorageNodeServer nodeID storagePath, fs0⟩ calls
        < 2147483648 + deleteSuccesses env ⟨NewStorageNodeServer nodeID storagePath, fs0⟩ calls →
      (GetNodeStatus (run env ⟨NewStorageNodeServer nodeID storagePath, fs0⟩ calls).server
          (some disk)).resp.map StatusResponse.FilesStored
        = some ((uploadSuccesses env ⟨NewStorageNodeServer nodeID storagePath, fs0⟩ calls : Int)
            - (deleteSuccesses env ⟨NewStorageNodeServer nodeID storagePath, fs0⟩ calls : Int))) := by
  have hw : World.Consistent ⟨NewStorageNodeServer nodeID storagePath, fs0⟩ := by
    refine ⟨hf, ?_⟩
    intro id m hm
    simp [NewStorageNodeServer] at hm
  have h := run_regular env calls _ hw hr
  have h0 : (NewStorageNodeServer nodeID storagePath).files.keys.length = 0 := rfl
  rw [h0, Nat.zero_add] at h
  have hcount : ((run env ⟨NewStorageNodeServer nodeID storagePath, fs0⟩
        calls).server.files.keys.length : Int)
      = (uploadSuccesses env ⟨NewStorageNodeServer nodeID storagePath, fs0⟩ calls : Int)
        - (deleteSuccesses env ⟨NewStorageNodeServer nodeID storagePath, fs0⟩ calls : Int) := by
    omega
  refine ⟨h, ?_, ?_⟩
  · simp only [GetNodeStatus, Option.map_some', hcount]
  · intro hlt
    simp only [GetNodeStatus, Option.map_some', hcount]
    rw [toInt32_of_lt _ (by omega) (by omega)]

/-- The count on a run with two stored uploads, one aborted upload, a successful and a failed delete. -/
theorem filesStored_eq_uploads_minus_deletes_witness :
    (GetNodeStatus (run refEnv ⟨NewStorageNodeServer "n" "root", FS.empty⟩
        [Call.upload 0 0 ⟨[⟨"a", [1], 0⟩], RecvEnd.eof, false⟩,
         Call.upload 0 0 ⟨[⟨"b", [2], 0⟩, ⟨"", [3], 0⟩], RecvEnd.eof, false⟩,
         Call.upload 0 0 ⟨[⟨"c", [4], 0⟩], RecvEnd.transportError, false⟩,
         Call.delete ⟨"a"⟩, Call.delete ⟨"zz"⟩, Call.status (some 7),
         Call.download ⟨"b"⟩ none]).server (some 7)).resp.map StatusResponse.FilesStored
      = some (toInt32
          ((uploadSuccesses refEnv ⟨NewStorageNodeServer "n" "root", FS.empty⟩
            [Call.upload 0 0 ⟨[⟨"a", [1], 0⟩], RecvEnd.eof, false⟩,
             Call.upload 0 0 ⟨[⟨"b", [2], 0⟩, ⟨"", [3], 0⟩], RecvEnd.eof, false⟩,
             Call.upload 0 0 ⟨[⟨"c", [4], 0⟩], RecvEnd.transportError, false⟩,
             Call.delete ⟨"a"⟩, Call.delete ⟨"zz"⟩, Call.status (some 7),
             Call.download ⟨"b"⟩ none] : Int)
          - (deleteSuccesses refEnv ⟨NewStorageNodeServer "n" "root", FS.empty⟩
            [Call.upload 0 0 ⟨[⟨"a", [1], 0⟩], RecvEnd.eof, false⟩,
             Call.upload 0 0 ⟨[⟨"b", [2], 0⟩, ⟨"", [3], 0⟩], RecvEnd.eof, false⟩,
             Call.upload 0 0 ⟨[⟨"c", [4], 0⟩], RecvEnd.transportError, false⟩,
             Call.delete ⟨"a"⟩, Call.delete ⟨"zz"⟩, Call.status (some 7),
             Call.download ⟨"b"⟩ none] : Int))) :=
  (filesStored_eq_uploads_minus_deletes refEnv "n" "root" FS.empty _ 7 rfl (by decide)).2.1

/-! ## The client scenario -/

theorem base64Encode_append :
    ∀ (a b : Bytes), a.length % 3 = 0 →
      base64.EncodeToString (a ++ b) = base64.EncodeToString a ++ base64.EncodeToString b
  | [], b, _ => by simp [base64.EncodeToString]
  | [_], _, h => by simp at h
  | [_, _], _, h => by simp at h
  | x :: y :: z :: rest, b, h => by
    have hr : rest.length % 3 = 0 := by
      simp only [List.length_cons] at h
      omega
    have ih := base64Encode_append rest b hr
    simp only [List.cons_append, base64.EncodeToString, List.append_eq, ih]

theorem base64Encode_length :
    ∀ (a : Bytes), (base64.EncodeToString a).length = 4 * ((a.length + 2) / 3)
  | [] => by simp [base64.EncodeToString]
  | [_] => by simp [base64.EncodeToString]
  | [_, _] => by simp [base64.EncodeToString]
  | x :: y :: z :: rest => by
    have ih := base64Encode_length rest
    simp only [base64.EncodeToString, List.length_cons, ih]
    omega

theorem blocksAux_map_base64 (n : Nat) (hn : 0 < n) (h3 : n % 3 = 0) :
    ∀ (fuel : Nat) (data : Bytes), data.length ≤ fuel →
      ((blocksAux n fuel data).map base64.EncodeToString).flatten
        = base64.EncodeToString data := by
  intro fuel
  induction fuel with
  | zero =>
    intro data h
    have h0 : data = [] := List.length_eq_zero.mp (Nat.le_zero.mp h)
    subst h0
    rfl
  | succ fuel ih =>
    intro data h
    cases data with
    | nil => rfl
    | cons x xs =>
      have hl : ((x :: xs).drop n).length ≤ fuel := by
        rw [List.length_drop]
        simp only [List.length_cons] at h ⊢
        omega
      simp only [blocksAux, List.map_cons, List.flatten_cons, ih _ hl]
      by_cases hle : (x :: xs).length ≤ n
      · rw [List.drop_eq_nil_of_le hle, List.take_of_length_le hle]
        simp [base64.EncodeToString]
      · have htake : ((x :: xs).take n).length % 3 = 0 := by
          rw [List.length_take, Nat.min_eq_left (by omega)]
          exact h3
        rw [← base64Encode_append _ _ htake, List.take_append_drop]

theorem clientChunks_ne_nil (source : Bytes) (hne : source ≠ []) :
    ∃ c cs, clientChunks source = c :: cs ∧ c.FileId = "" := by
  cases source with
  | nil => exact absurd rfl hne
  | cons x xs => exact ⟨_, _, rfl, rfl⟩

theorem streamContent_clientChunks (source : Bytes) :
    streamContent (clientChunks source) = base64.EncodeToString source := by
  unfold streamContent clientChunks
  rw [List.map_map]
  exact blocksAux_map_base64 chunkSize (by decide) (by decide) source.length source
    (Nat.le_refl _)

theorem clientChunks_count (source : Bytes) (h : source.length = 2000000) :
    (clientChunks source).length = 3 := by
  have h1 := blocksAux_count chunkSize (by decide) source.length source
  have h2 := blocksAux_count_ge chunkSize (by decide) source.length source (Nat.le_refl _)
  unfold clientChunks blocks
  rw [List.length_map]
  have hc : chunkSize = 786432 := rfl
  rw [hc] at h1 h2 ⊢
  omega

/-- Claim C9 as stated fails: for a one-byte source file holding `A` the
output file of the download holds the four characters `QQ==`, not the source. -/
theorem uploadThenDownload_differs_from_source :
    (uploadThenDownload refEnv 0 0 ⟨NewStorageNodeServer "n" "root", FS.empty⟩ [65]).2
      = some [81, 81, 61, 61] := by
  decide

/-- Claim C9, amended: for every non-empty source file, on a server whose
filesystem operations do not fail, the client's `uploadFile` followed by its
`downloadFile` of the returned identifier yields a success response carrying
the generated identifier and writes an output file holding the standard Base64
encoding of the source, of length `4 * ceil(len / 3)`; a 2,000,000-byte source
is sent as 3 chunks and gives an output of 2,666,668 bytes. -/
theorem uploadThenDownload_base64 (env : Env) (tGen tDone : Int) (w : World)
    (source : Bytes) (hf : w.fs.faults = []) (hne : source ≠ []) :
    uploadThenDownload env tGen tDone w source
      = (some ⟨true, generateFileID env w.server.nodeID tGen,
            "Base64 file uploaded successfully"⟩,
          some (base64.EncodeToString source)) ∧
    (base64.EncodeToString source).length = 4 * ((source.length + 2) / 3) ∧
    (source.length = 2000000 →
      (clientChunks source).length = 3 ∧ (base64.EncodeToString source).length = 2666668) := by
  refine ⟨?_, base64Encode_length source, ?_⟩
  · obtain ⟨c, cs, hcc, hc⟩ := clientChunks_ne_nil source hne
    obtain ⟨hs, hdata, hfaults, -, hsent, herr⟩ :=
      UploadFile_eof_of_no_faults env tGen tDone w.server w.fs c cs false hf
    have hid : uploadIdentifier env tGen w.server (c :: cs)
        = generateFileID env w.server.nodeID tGen := by
      simp [uploadIdentifier, hc]
    rw [hid] at hs hdata hsent
    have hsc : streamContent (c :: cs) = base64.EncodeToString source := by
      rw [← hcc]
      exact streamContent_clientChunks source
    rw [hsc] at hs hdata
    have hp : env.Join w.server.storagePath
        (generateFileID env w.server.nodeID tGen ++ ".b64") ≠ "" :=
      env.Join_ne_empty _ _ (b64_name_ne_empty _)
    have hup : uploadFile env tGen tDone w source
        = (⟨(UploadFile env tGen tDone w.server w.fs ⟨c :: cs, RecvEnd.eof, false⟩).server,
            (UploadFile env tGen tDone w.server w.fs ⟨c :: cs, RecvEnd.eof, false⟩).fs⟩,
          some ⟨true, generateFileID env w.server.nodeID tGen,
            "Base64 file uploaded successfully"⟩) := by
      simp only [uploadFile, hcc, hsent, herr]
      simp
    have hl : (UploadFile env tGen tDone w.server w.fs
          ⟨c :: cs, RecvEnd.eof, false⟩).server.files.lookup
          (generateFileID env w.server.nodeID tGen)
        = some ⟨env.Join w.server.storagePath
            (generateFileID env w.server.nodeID tGen ++ ".b64"),
            (base64.EncodeToString source).length, tDone, true⟩ := by
      rw [hs]
      exact AList.lookup_insert _
    unfold uploadThenDownload
    rw [hup]
    simp only [downloadFile]
    rw [DownloadFile_of_stored _ _ _ _ _ hl hp hdata hfaults]
    simp only [numbered_map_Content, blocks_flatten 1048576 (by decide)]
    simp
  · intro hlen
    refine ⟨clientChunks_count source hlen, ?_⟩
    rw [base64Encode_length, hlen]

/-- The scenario on the four-byte source `Man!`. -/
theorem uploadThenDownload_base64_witness :
    uploadThenDownload refEnv 0 0 ⟨NewStorageNodeServer "n" "root", FS.empty⟩ [77, 97, 110, 33]
      = (some ⟨true, generateFileID refEnv "n" 0, "Base64 file uploaded successfully"⟩,
          some (base64.EncodeToString [77, 97, 110, 33])) :=
  (uploadThenDownload_base64 refEnv 0 0 ⟨NewStorageNodeServer "n" "root", FS.empty⟩
    [77, 97, 110, 33] rfl (by decide)).1

end StorageNode
